import Mathlib

/-!
Verification of the sqlglot parser core.

A shallow embedding of `src/sqlglot/parser.py`: the statement splitter, the
cursor primitives, the recursive-descent grammar with its generic
precedence-climbing helper, and the function registry.  Machine state is the
cursor index (a `Nat`) threaded explicitly; Python exceptions become an
`Except` error value; the unbounded recursion of the Python code is driven by
an explicit fuel parameter, and fuel sufficiency is proved separately.
-/

namespace SqlGlot

/-- Lexical categories of tokens.  The parser only ever inspects this tag.
Modelled from the spec: `TokenType` lives in `sqlglot/tokens.py`, which is
outside the verified sources; the spec's §3 closed enumeration together with
the members referenced by `parser.py` determines the carrier. -/
inductive TokenType where
  | semicolon | withT | identifier | var | alias
  | select | fromT | leftT | rightT | fullT | inner | outer | cross | join | onT
  | lParen | rParen | dot | whereT | group | byT | having | order | desc
  | union | allT | inT | between | andT | orT | notT | dash | cast | caseT
  | count | whenT | thenT | elseT | endT | distinct
  | string | number | star | nullT | lBracket | rBracket | over | partition
  | comma | eq | neq | isT | gt | gte | lt | lte | plus | slash
  | boolean | tinyint | smallint | intT | bigint | floatT | doubleT | decimal
  | char | varchar | text | binary | json
  deriving DecidableEq, Repr

/-- A lexical token.  Modelled from the spec: `Token` is produced by the
external tokenizer (`sqlglot/tokens.py`); the parser reads only the lexical
category and the literal text, so the source position is omitted. -/
structure Token where
  tokenType : TokenType
  text : String
  deriving DecidableEq, Repr

/-- Expression-tree nodes.  Modelled from the spec: the node classes live in
`sqlglot/expressions.py`, outside the verified sources; the spec's §3 node
list together with every constructor call in `parser.py` fixes the variants
and their fields.  Fields that the Python code can bind to `None` are
`Option`s. -/
inductive Expr where
  | select (expressions : List (Option Expr))
  | cte (this : Option Expr) (expressions : List (Option Expr))
  | fromE (this expression : Option Expr)
  | join (this expression : Option Expr) (side kind : Option Token) (onE : Option Expr)
  | whereE (this expression : Option Expr)
  | group (this : Option Expr) (expressions : List (Option Expr))
  | having (this expression : Option Expr)
  | order (this : Option Expr) (expressions : List (Option Expr)) (desc : Bool)
  | union (this expression : Option Expr) (distinct : Bool)
  | table (this db : Option Token)
  | alias (this : Option Expr) (toT : Option Token)
  | andE (this expression : Option Expr)
  | orE (this expression : Option Expr)
  | eq (this expression : Option Expr)
  | neq (this expression : Option Expr)
  | isE (this expression : Option Expr)
  | gt (this expression : Option Expr)
  | gte (this expression : Option Expr)
  | lt (this expression : Option Expr)
  | lte (this expression : Option Expr)
  | minus (this expression : Option Expr)
  | plus (this expression : Option Expr)
  | slash (this expression : Option Expr)
  | starE (this expression : Option Expr)
  | notE (this : Option Expr)
  | neg (this : Option Expr)
  | inE (this : Option Expr) (expressions : List (Option Expr))
  | between (this low high : Option Expr)
  | paren (this : Option Expr)
  | bracket (this : Option Expr) (expressions : List (Option Expr))
  | column (this : Token) (db table : Option Token)
  | window (this : Option Expr) (partition : Option (List (Option Expr)))
      (order : Option Expr)
  | caseE (ifs : List Expr) (default : Option Expr)
  | ifE (condition true_ false_ : Option Expr)
  | cast (this : Option Expr) (toT : Option Token)
  | avg (this : Option Expr)
  | ceil (this : Option Expr)
  | coalesce (expressions : List (Option Expr))
  | first (this : Option Expr)
  | floor (this : Option Expr)
  | last (this : Option Expr)
  | ln (this : Option Expr)
  | maxE (this : Option Expr)
  | minE (this : Option Expr)
  | sum (this : Option Expr)
  | rank (this : Option Expr)
  | rowNumber (this : Option Expr)
  | count (this : Option Expr) (distinct : Bool)
  | tok (t : Token)

/-- How a parse run aborts: the Python `ValueError`s raised by the grammar,
the `IndexError` a registry builder raises on a too-short argument list, and
the artificial out-of-fuel marker of the embedding. -/
inductive PErr where
  | fuelExhausted
  | valueError (msg : String)
  | indexError
  deriving DecidableEq, Repr

/-- Result of one grammar production: an error, or a value with the cursor
index after it. -/
abbrev Res (α : Type) := Except PErr (α × Nat)

/-- How a registry builder can fail: the exceptions Python code can raise.
(The out-of-fuel marker is an artifact of the embedding's recursion bound,
not a Python exception, so a builder can never produce it.) -/
inductive BErr where
  | valueError (msg : String)
  | indexError
  deriving DecidableEq, Repr

/-- Inject a builder failure into the parse-failure type. -/
def BErr.toPErr : BErr → PErr
  | .valueError m => .valueError m
  | .indexError => .indexError

/-- A function-registry entry: builds a node from the parsed argument list,
or fails (Python `args[i]` raises `IndexError` past the end). -/
abbrev Builder := List (Option Expr) → Except BErr Expr

/-- `args[n]` of Python: the `n`-th parsed argument, `IndexError` when the
list is too short. -/
def getArg (args : List (Option Expr)) (n : Nat) : Except BErr (Option Expr) :=
  match args.get? n with
  | some v => .ok v
  | none => .error .indexError

/-- `Parser.FUNCTIONS`: the built-in registry, keyed by uppercase name. -/
def defaultFunctions : List (String × Builder) :=
  [ ("AVG", fun args => do pure (.avg (← getArg args 0)))
  , ("CEIL", fun args => do pure (.ceil (← getArg args 0)))
  , ("COALESCE", fun args => pure (.coalesce args))
  , ("FIRST", fun args => do pure (.first (← getArg args 0)))
  , ("FLOOR", fun args => do pure (.floor (← getArg args 0)))
  , ("LAST", fun args => do pure (.last (← getArg args 0)))
  , ("IF", fun args => do
      pure (.ifE (← getArg args 0) (← getArg args 1) (← getArg args 2)))
  , ("LN", fun args => do pure (.ln (← getArg args 0)))
  , ("MAX", fun args => do pure (.maxE (← getArg args 0)))
  , ("MIN", fun args => do pure (.minE (← getArg args 0)))
  , ("SUM", fun args => do pure (.sum (← getArg args 0)))
  , ("RANK", fun args => do pure (.rank (← getArg args 0)))
  , ("ROW_NUMBER", fun args => do pure (.rowNumber (← getArg args 0)))
  ]

/-- `Parser.TYPE_TOKENS`: the closed set of type keywords CAST accepts. -/
def typeTokens : List TokenType :=
  [.boolean, .tinyint, .smallint, .intT, .bigint, .floatT, .doubleT,
   .decimal, .char, .varchar, .text, .binary, .json]

/-- `Parser.COLUMN_TOKENS`: kinds accepted as a column name after a dot. -/
def columnTokens : List TokenType := [.var, .identifier, .star]

/-- Fixed per-`parse`-call context: the merged function registry
(`self.functions`) and the current chunk's token array (`self._tokens`). -/
structure Ctx where
  fns : String → Option Builder
  tokens : List Token

/-- The default context for a chunk: built-in registry only
(`Parser()` with no caller-supplied functions). -/
def defaultCtx (tokens : List Token) : Ctx :=
  ⟨fun n => defaultFunctions.lookup n, tokens⟩

/-- `Parser._safe_get`: Python list indexing with negative-index wraparound,
`None` out of range. -/
def safeGet (c : Ctx) (j : Int) : Option Token :=
  if 0 ≤ j then
    c.tokens.get? j.toNat
  else if (-j).toNat ≤ c.tokens.length then
    c.tokens.get? (c.tokens.length - (-j).toNat)
  else
    none

/-- `Parser._curr`. -/
def currT (c : Ctx) (i : Nat) : Option Token := safeGet c i

/-- `Parser._prev`. -/
def prevT (c : Ctx) (i : Nat) : Option Token := safeGet c ((i : Int) - 1)

/-- `Parser._next`. -/
def nextT (c : Ctx) (i : Nat) : Option Token := safeGet c ((i : Int) + 1)

/-- `Parser._match`: if the current token's kind is among `types`, advance
one token and report success; otherwise stay put and report failure. -/
def pmatch (c : Ctx) (types : List TokenType) (i : Nat) : Bool × Nat :=
  match currT c i with
  | none => (false, i)
  | some t => if t.tokenType ∈ types then (true, i + 1) else (false, i)

/-- The operand tier a `_parse_tokens` instance parses between operators.
The Python helper receives the bound method; the dispatch index keeps the
mutual recursion first-order. -/
inductive Tier where
  | equality | comparison | range | factor | unary
  deriving DecidableEq, Repr

/-- Which item parser a `_parse_csv` instance repeats. -/
inductive CsvKind where
  | expression | primary | cte
  deriving DecidableEq, Repr

/-- Operator table of `_parse_conjunction`: `exp.And, exp.Or`. -/
def conjOps : List (TokenType × (Option Expr → Option Expr → Expr)) :=
  [(.andT, Expr.andE), (.orT, Expr.orE)]

/-- Operator table of `_parse_equality`: `exp.EQ, exp.NEQ, exp.Is`. -/
def eqOps : List (TokenType × (Option Expr → Option Expr → Expr)) :=
  [(.eq, Expr.eq), (.neq, Expr.neq), (.isT, Expr.isE)]

/-- Operator table of `_parse_comparison`: `exp.GT, exp.GTE, exp.LT, exp.LTE`. -/
def compOps : List (TokenType × (Option Expr → Option Expr → Expr)) :=
  [(.gt, Expr.gt), (.gte, Expr.gte), (.lt, Expr.lt), (.lte, Expr.lte)]

/-- Operator table of `_parse_term`: `exp.Minus, exp.Plus`. -/
def termOps : List (TokenType × (Option Expr → Option Expr → Expr)) :=
  [(.dash, Expr.minus), (.plus, Expr.plus)]

/-- Operator table of `_parse_factor`: `exp.Slash, exp.Star`. -/
def factorOps : List (TokenType × (Option Expr → Option Expr → Expr)) :=
  [(.slash, Expr.slash), (.star, Expr.starE)]

/-- Sequencing of productions: propagate an error, otherwise continue with
the produced value and the cursor after it. -/
def andThen {α β : Type} (x : Res α) (f : α → Nat → Res β) : Res β :=
  match x with
  | .error e => .error e
  | .ok (a, i) => f a i

mutual

/-- `Parser._parse_statement`. -/
def parseStatement (c : Ctx) (fuel : Nat) (i : Nat) : Res (Option Expr) :=
  match fuel with
  | 0 => .error .fuelExhausted
  | fuel + 1 =>
    match pmatch c [.withT] i with
    | (false, i1) => parseSelect c fuel i1
    | (true, i1) =>
      andThen (parseCsv c fuel .cte i1) fun exprs i2 =>
      andThen (parseSelect c fuel i2) fun sel i3 =>
      .ok (some (.cte sel exprs), i3)

/-- `Parser._parse_cte`. -/
def parseCte (c : Ctx) (fuel : Nat) (i : Nat) : Res (Option Expr) :=
  match fuel with
  | 0 => .error .fuelExhausted
  | fuel + 1 =>
    match pmatch c [.identifier, .var] i with
    | (false, _) => .error (.valueError "Expected alias after WITH")
    | (true, i1) =>
      let aliasTok := prevT c i1
      match pmatch c [.alias] i1 with
      | (false, _) => .error (.valueError "Expected AS after WITH")
      | (true, i2) =>
        andThen (parseTable c fuel i2) fun tbl i3 =>
        .ok (some (.alias tbl aliasTok), i3)
termination_by structural fuel

/-- `Parser._parse_select`. -/
def parseSelect (c : Ctx) (fuel : Nat) (i : Nat) : Res (Option Expr) :=
  match fuel with
  | 0 => .error .fuelExhausted
  | fuel + 1 =>
    match pmatch c [.select] i with
    | (false, i1) => .ok (none, i1)
    | (true, i1) =>
      andThen (parseCsv c fuel .expression i1) fun exprs i2 =>
      andThen (parseFrom c fuel (some (.select exprs)) i2) fun t1 i3 =>
      andThen (parseJoin c fuel t1 i3) fun t2 i4 =>
      andThen (parseWhere c fuel t2 i4) fun t3 i5 =>
      andThen (parseGroup c fuel t3 i5) fun t4 i6 =>
      andThen (parseHaving c fuel t4 i6) fun t5 i7 =>
      andThen (parseOrder c fuel t5 i7) fun t6 i8 =>
      parseUnion c fuel t6 i8
termination_by structural fuel

/-- `Parser._parse_from`. -/
def parseFrom (c : Ctx) (fuel : Nat) (this : Option Expr) (i : Nat) :
    Res (Option Expr) :=
  match fuel with
  | 0 => .error .fuelExhausted
  | fuel + 1 =>
    match pmatch c [.fromT] i with
    | (false, i1) => .ok (this, i1)
    | (true, i1) =>
      andThen (parseTable c fuel i1) fun tbl i2 =>
      .ok (some (.fromE tbl this), i2)
termination_by structural fuel

/-- `Parser._parse_join`: optional side, optional kind, then JOIN commits;
recurses on its own output so chains left-nest. -/
def parseJoin (c : Ctx) (fuel : Nat) (this : Option Expr) (i : Nat) :
    Res (Option Expr) :=
  match fuel with
  | 0 => .error .fuelExhausted
  | fuel + 1 =>
    let (m1, i1) := pmatch c [.leftT, .rightT, .fullT] i
    let side := if m1 then prevT c i1 else none
    let (m2, i2) := pmatch c [.inner, .outer, .cross] i1
    let kind := if m2 then prevT c i2 else none
    match pmatch c [.join] i2 with
    | (false, i3) => .ok (this, i3)
    | (true, i3) =>
      andThen (parseTable c fuel i3) fun expression i4 =>
      match pmatch c [.onT] i4 with
      | (false, i5) =>
          parseJoin c fuel (some (.join expression this side kind none)) i5
      | (true, i5) =>
          andThen (parseExpression c fuel i5) fun onV i6 =>
          parseJoin c fuel (some (.join expression this side kind onV)) i6
termination_by structural fuel

/-- `Parser._parse_table`. -/
def parseTable (c : Ctx) (fuel : Nat) (i : Nat) : Res (Option Expr) :=
  match fuel with
  | 0 => .error .fuelExhausted
  | fuel + 1 =>
    match pmatch c [.lParen] i with
    | (true, i1) =>
      andThen (parseSelect c fuel i1) fun nested i2 =>
      match pmatch c [.rParen] i2 with
      | (false, _) => .error (.valueError "Expecting )")
      | (true, i3) => parseAlias c fuel nested i3
    | (false, i1) =>
      let (m, i2) := pmatch c [.var, .identifier] i1
      let tbl := if m then prevT c i2 else none
      match pmatch c [.dot] i2 with
      | (false, i3) => parseAlias c fuel (some (.table tbl none)) i3
      | (true, i3) =>
        match pmatch c [.var, .identifier] i3 with
        | (false, _) => .error (.valueError "Expected table name")
        | (true, i4) => parseAlias c fuel (some (.table (prevT c i4) tbl)) i4
termination_by structural fuel

/-- `Parser._parse_where`. -/
def parseWhere (c : Ctx) (fuel : Nat) (this : Option Expr) (i : Nat) :
    Res (Option Expr) :=
  match fuel with
  | 0 => .error .fuelExhausted
  | fuel + 1 =>
    match pmatch c [.whereT] i with
    | (false, i1) => .ok (this, i1)
    | (true, i1) =>
      andThen (parseConjunction c fuel i1) fun e i2 =>
      .ok (some (.whereE this e), i2)
termination_by structural fuel

/-- `Parser._parse_group`. -/
def parseGroup (c : Ctx) (fuel : Nat) (this : Option Expr) (i : Nat) :
    Res (Option Expr) :=
  match fuel with
  | 0 => .error .fuelExhausted
  | fuel + 1 =>
    match pmatch c [.group] i with
    | (false, i1) => .ok (this, i1)
    | (true, i1) =>
      match pmatch c [.byT] i1 with
      | (false, _) => .error (.valueError "Expecting BY")
      | (true, i2) =>
        andThen (parseCsv c fuel .primary i2) fun exprs i3 =>
        .ok (some (.group this exprs), i3)
termination_by structural fuel

/-- `Parser._parse_having`. -/
def parseHaving (c : Ctx) (fuel : Nat) (this : Option Expr) (i : Nat) :
    Res (Option Expr) :=
  match fuel with
  | 0 => .error .fuelExhausted
  | fuel + 1 =>
    match pmatch c [.having] i with
    | (false, i1) => .ok (this, i1)
    | (true, i1) =>
      andThen (parseConjunction c fuel i1) fun e i2 =>
      .ok (some (.having this e), i2)
termination_by structural fuel

/-- `Parser._parse_order`. -/
def parseOrder (c : Ctx) (fuel : Nat) (this : Option Expr) (i : Nat) :
    Res (Option Expr) :=
  match fuel with
  | 0 => .error .fuelExhausted
  | fuel + 1 =>
    match pmatch c [.order] i with
    | (false, i1) => .ok (this, i1)
    | (true, i1) =>
      match pmatch c [.byT] i1 with
      | (false, _) => .error (.valueError "Expecting BY")
      | (true, i2) =>
        andThen (parseCsv c fuel .primary i2) fun exprs i3 =>
        let (md, i4) := pmatch c [.desc] i3
        .ok (some (.order this exprs md), i4)
termination_by structural fuel

/-- `Parser._parse_union`. -/
def parseUnion (c : Ctx) (fuel : Nat) (this : Option Expr) (i : Nat) :
    Res (Option Expr) :=
  match fuel with
  | 0 => .error .fuelExhausted
  | fuel + 1 =>
    match pmatch c [.union] i with
    | (false, i1) => .ok (this, i1)
    | (true, i1) =>
      let (mall, i2) := pmatch c [.allT] i1
      andThen (parseSelect c fuel i2) fun sel i3 =>
      .ok (some (.union this sel (!mall)), i3)
termination_by structural fuel

/-- `Parser._parse_expression`. -/
def parseExpression (c : Ctx) (fuel : Nat) (i : Nat) : Res (Option Expr) :=
  match fuel with
  | 0 => .error .fuelExhausted
  | fuel + 1 =>
    andThen (parseConjunction c fuel i) fun e i1 =>
    andThen (parseWindow c fuel e i1) fun w i2 =>
    parseAlias c fuel w i2
termination_by structural fuel

/-- `Parser._parse_conjunction`. -/
def parseConjunction (c : Ctx) (fuel : Nat) (i : Nat) : Res (Option Expr) :=
  match fuel with
  | 0 => .error .fuelExhausted
  | fuel + 1 => parseTokens c fuel .equality conjOps i
termination_by structural fuel

/-- `Parser._parse_equality`. -/
def parseEquality (c : Ctx) (fuel : Nat) (i : Nat) : Res (Option Expr) :=
  match fuel with
  | 0 => .error .fuelExhausted
  | fuel + 1 => parseTokens c fuel .comparison eqOps i
termination_by structural fuel

/-- `Parser._parse_comparison`. -/
def parseComparison (c : Ctx) (fuel : Nat) (i : Nat) : Res (Option Expr) :=
  match fuel with
  | 0 => .error .fuelExhausted
  | fuel + 1 => parseTokens c fuel .range compOps i
termination_by structural fuel

/-- `Parser._parse_range`. -/
def parseRange (c : Ctx) (fuel : Nat) (i : Nat) : Res (Option Expr) :=
  match fuel with
  | 0 => .error .fuelExhausted
  | fuel + 1 =>
    andThen (parseTerm c fuel i) fun this i1 =>
    match pmatch c [.inT] i1 with
    | (true, i2) =>
      match pmatch c [.lParen] i2 with
      | (false, _) => .error (.valueError "Expected ( after IN")
      | (true, i3) =>
        andThen (parseCsv c fuel .primary i3) fun exprs i4 =>
        match pmatch c [.rParen] i4 with
        | (false, _) => .error (.valueError "Expected ) after IN")
        | (true, i5) => .ok (some (.inE this exprs), i5)
    | (false, i2) =>
      match pmatch c [.between] i2 with
      | (true, i3) =>
        andThen (parsePrimary c fuel i3) fun low i4 =>
        let (_, i5) := pmatch c [.andT] i4
        andThen (parsePrimary c fuel i5) fun high i6 =>
        .ok (some (.between this low high), i6)
      | (false, i3) => .ok (this, i3)
termination_by structural fuel

/-- `Parser._parse_term`. -/
def parseTerm (c : Ctx) (fuel : Nat) (i : Nat) : Res (Option Expr) :=
  match fuel with
  | 0 => .error .fuelExhausted
  | fuel + 1 => parseTokens c fuel .factor termOps i
termination_by structural fuel

/-- `Parser._parse_factor`. -/
def parseFactor (c : Ctx) (fuel : Nat) (i : Nat) : Res (Option Expr) :=
  match fuel with
  | 0 => .error .fuelExhausted
  | fuel + 1 => parseTokens c fuel .unary factorOps i
termination_by structural fuel

/-- `Parser._parse_unary`. -/
def parseUnary (c : Ctx) (fuel : Nat) (i : Nat) : Res (Option Expr) :=
  match fuel with
  | 0 => .error .fuelExhausted
  | fuel + 1 =>
    match pmatch c [.notT] i with
    | (true, i1) =>
      andThen (parseUnary c fuel i1) fun u i2 =>
      .ok (some (.notE u), i2)
    | (false, i1) =>
      match pmatch c [.dash] i1 with
      | (true, i2) =>
        andThen (parseUnary c fuel i2) fun u i3 =>
        .ok (some (.neg u), i3)
      | (false, i2) => parseSpecial c fuel i2
termination_by structural fuel

/-- `Parser._parse_special`. -/
def parseSpecial (c : Ctx) (fuel : Nat) (i : Nat) : Res (Option Expr) :=
  match fuel with
  | 0 => .error .fuelExhausted
  | fuel + 1 =>
    match pmatch c [.cast] i with
    | (true, i1) => parseCast c fuel i1
    | (false, i1) =>
      match pmatch c [.caseT] i1 with
      | (true, i2) => parseCase c fuel i2
      | (false, i2) =>
        match pmatch c [.count] i2 with
        | (true, i3) => parseCount c fuel i3
        | (false, i3) => parsePrimary c fuel i3
termination_by structural fuel

/-- `Parser._parse_case` (after the CASE keyword has been consumed). -/
def parseCase (c : Ctx) (fuel : Nat) (i : Nat) : Res (Option Expr) :=
  match fuel with
  | 0 => .error .fuelExhausted
  | fuel + 1 =>
    andThen (parseCaseIfs c fuel [] i) fun ifs i1 =>
    match pmatch c [.elseT] i1 with
    | (true, i2) =>
      andThen (parseExpression c fuel i2) fun d i3 =>
      match pmatch c [.endT] i3 with
      | (false, _) => .error (.valueError "Expected END after CASE")
      | (true, i4) => .ok (some (.caseE ifs d), i4)
    | (false, i2) =>
      match pmatch c [.endT] i2 with
      | (false, _) => .error (.valueError "Expected END after CASE")
      | (true, i3) => .ok (some (.caseE ifs none), i3)
termination_by structural fuel

/-- The WHEN/THEN loop of `Parser._parse_case`. -/
def parseCaseIfs (c : Ctx) (fuel : Nat) (acc : List Expr) (i : Nat) :
    Res (List Expr) :=
  match fuel with
  | 0 => .error .fuelExhausted
  | fuel + 1 =>
    match pmatch c [.whenT] i with
    | (false, i1) => .ok (acc, i1)
    | (true, i1) =>
      andThen (parseExpression c fuel i1) fun condition i2 =>
      let (_, i3) := pmatch c [.thenT] i2
      andThen (parseExpression c fuel i3) fun thenV i4 =>
      parseCaseIfs c fuel (acc ++ [.ifE condition thenV none]) i4
termination_by structural fuel

/-- `Parser._parse_count` (after the COUNT keyword has been consumed). -/
def parseCount (c : Ctx) (fuel : Nat) (i : Nat) : Res (Option Expr) :=
  match fuel with
  | 0 => .error .fuelExhausted
  | fuel + 1 =>
    match pmatch c [.lParen] i with
    | (false, _) => .error (.valueError "Expected ( after COUNT")
    | (true, i1) =>
      let (md, i2) := pmatch c [.distinct] i1
      andThen (parseConjunction c fuel i2) fun e i3 =>
      match pmatch c [.rParen] i3 with
      | (false, _) => .error (.valueError "Expected ) after COUNT")
      | (true, i4) => .ok (some (.count e md), i4)
termination_by structural fuel

/-- `Parser._parse_cast` (after the CAST keyword has been consumed). -/
def parseCast (c : Ctx) (fuel : Nat) (i : Nat) : Res (Option Expr) :=
  match fuel with
  | 0 => .error .fuelExhausted
  | fuel + 1 =>
    match pmatch c [.lParen] i with
    | (false, _) => .error (.valueError "Expected ( after CAST")
    | (true, i1) =>
      andThen (parseConjunction c fuel i1) fun e i2 =>
      match pmatch c [.alias] i2 with
      | (false, _) => .error (.valueError "Expected AS after CAST")
      | (true, i3) =>
        match pmatch c typeTokens i3 with
        | (false, _) => .error (.valueError "Expected type after CAST")
        | (true, i4) =>
          match pmatch c [.rParen] i4 with
          | (false, _) => .error (.valueError "Expected ) after CAST")
          | (true, i5) => .ok (some (.cast e (prevT c i4)), i5)
termination_by structural fuel

/-- `Parser._parse_primary`. -/
def parsePrimary (c : Ctx) (fuel : Nat) (i : Nat) : Res (Option Expr) :=
  match fuel with
  | 0 => .error .fuelExhausted
  | fuel + 1 =>
    match pmatch c [.string, .number, .star, .nullT] i with
    | (true, i1) => .ok ((prevT c i1).map Expr.tok, i1)
    | (false, i1) =>
      match pmatch c [.lParen] i1 with
      | (true, i2) =>
        andThen (parseExpression c fuel i2) fun e i3 =>
        match pmatch c [.rParen] i3 with
        | (false, _) => .error (.valueError "Expecting )")
        | (true, i4) => .ok (some (.paren e), i4)
      | (false, i2) => parseColumn c fuel i2
termination_by structural fuel

/-- `Parser._parse_column`, including function-call dispatch through the
registry and dotted qualifiers. -/
def parseColumn (c : Ctx) (fuel : Nat) (i : Nat) : Res (Option Expr) :=
  match fuel with
  | 0 => .error .fuelExhausted
  | fuel + 1 =>
    match pmatch c [.var, .identifier] i with
    | (false, i1) => .ok (none, i1)
    | (true, i1) =>
      match prevT c i1 with
      | none => .error (.valueError "AttributeError")
      | some tk =>
        match pmatch c [.lParen] i1 with
        | (true, i2) =>
          if tk.tokenType = .identifier then .error (.valueError "Unexpected (")
          else
            match c.fns tk.text.toUpper with
            | none =>
                .error (.valueError ("Unrecognized function name " ++ tk.text))
            | some builder =>
              andThen (parseCsv c fuel .expression i2) fun args i3 =>
              match builder args with
              | .error e => .error e.toPErr
              | .ok fe =>
                match pmatch c [.rParen] i3 with
                | (false, _) =>
                    .error (.valueError ("Expected ) after function " ++ tk.text))
                | (true, i4) => .ok (some fe, i4)
        | (false, i2) =>
          match pmatch c [.dot] i2 with
          | (false, i3) => parseBrackets c fuel (some (.column tk none none)) i3
          | (true, i3) =>
            match pmatch c columnTokens i3 with
            | (false, _) => .error (.valueError "Expected column name")
            | (true, i4) =>
              match prevT c i4 with
              | none => .error (.valueError "AttributeError")
              | some tk2 =>
                match pmatch c [.dot] i4 with
                | (false, i5) =>
                    parseBrackets c fuel (some (.column tk2 none (some tk))) i5
                | (true, i5) =>
                  match pmatch c columnTokens i5 with
                  | (false, _) => .error (.valueError "Expected column name")
                  | (true, i6) =>
                    match prevT c i6 with
                    | none => .error (.valueError "AttributeError")
                    | some tk3 =>
                        parseBrackets c fuel
                          (some (.column tk3 (some tk) (some tk2))) i6
termination_by structural fuel

/-- `Parser._parse_brackets`. -/
def parseBrackets (c : Ctx) (fuel : Nat) (this : Option Expr) (i : Nat) :
    Res (Option Expr) :=
  match fuel with
  | 0 => .error .fuelExhausted
  | fuel + 1 =>
    match pmatch c [.lBracket] i with
    | (false, i1) => .ok (this, i1)
    | (true, i1) =>
      andThen (parseCsv c fuel .primary i1) fun exprs i2 =>
      match pmatch c [.rBracket] i2 with
      | (false, _) => .error (.valueError "Expected ] after [")
      | (true, i3) => .ok (some (.bracket this exprs), i3)
termination_by structural fuel

/-- `Parser._parse_window`. -/
def parseWindow (c : Ctx) (fuel : Nat) (this : Option Expr) (i : Nat) :
    Res (Option Expr) :=
  match fuel with
  | 0 => .error .fuelExhausted
  | fuel + 1 =>
    match pmatch c [.over] i with
    | (false, i1) => .ok (this, i1)
    | (true, i1) =>
      match pmatch c [.lParen] i1 with
      | (false, _) => .error (.valueError "Expecting ( after OVER")
      | (true, i2) =>
        match pmatch c [.partition] i2 with
        | (true, i3) =>
          match pmatch c [.byT] i3 with
          | (false, _) => .error (.valueError "Expecting BY after PARTITION")
          | (true, i4) =>
            andThen (parseCsv c fuel .primary i4) fun part i5 =>
            andThen (parseOrder c fuel none i5) fun ord i6 =>
            match pmatch c [.rParen] i6 with
            | (false, _) => .error (.valueError "Expecting )")
            | (true, i7) => .ok (some (.window this (some part) ord), i7)
        | (false, i3) =>
          andThen (parseOrder c fuel none i3) fun ord i4 =>
          match pmatch c [.rParen] i4 with
          | (false, _) => .error (.valueError "Expecting )")
          | (true, i5) => .ok (some (.window this none ord), i5)
termination_by structural fuel

/-- `Parser._parse_alias`. -/
def parseAlias (c : Ctx) (fuel : Nat) (this : Option Expr) (i : Nat) :
    Res (Option Expr) :=
  match fuel with
  | 0 => .error .fuelExhausted
  | _ + 1 =>
    let (_, i1) := pmatch c [.alias] i
    match pmatch c [.identifier, .var] i1 with
    | (true, i2) => .ok (some (.alias this (prevT c i2)), i2)
    | (false, i2) => .ok (this, i2)

/-- `Parser._parse_csv`: first item, then the comma loop. -/
def parseCsv (c : Ctx) (fuel : Nat) (k : CsvKind) (i : Nat) :
    Res (List (Option Expr)) :=
  match fuel with
  | 0 => .error .fuelExhausted
  | fuel + 1 =>
    andThen (parseCsvItem c fuel k i) fun x i1 =>
    parseCsvLoop c fuel k [x] i1
termination_by structural fuel

/-- The comma loop of `Parser._parse_csv`. -/
def parseCsvLoop (c : Ctx) (fuel : Nat) (k : CsvKind) (acc : List (Option Expr))
    (i : Nat) : Res (List (Option Expr)) :=
  match fuel with
  | 0 => .error .fuelExhausted
  | fuel + 1 =>
    match pmatch c [.comma] i with
    | (false, i1) => .ok (acc, i1)
    | (true, i1) =>
      andThen (parseCsvItem c fuel k i1) fun x i2 =>
      parseCsvLoop c fuel k (acc ++ [x]) i2
termination_by structural fuel

/-- Dispatch to the item parser handed to `Parser._parse_csv` at each of its
three call shapes. -/
def parseCsvItem (c : Ctx) (fuel : Nat) (k : CsvKind) (i : Nat) :
    Res (Option Expr) :=
  match fuel with
  | 0 => .error .fuelExhausted
  | fuel + 1 =>
    match k with
    | .expression => parseExpression c fuel i
    | .primary => parsePrimary c fuel i
    | .cte => parseCte c fuel i
termination_by structural fuel

/-- `Parser._parse_tokens`: the generic precedence-climbing helper — parse
one operand at the tighter tier, then run the operator loop. -/
def parseTokens (c : Ctx) (fuel : Nat) (t : Tier)
    (ops : List (TokenType × (Option Expr → Option Expr → Expr))) (i : Nat) :
    Res (Option Expr) :=
  match fuel with
  | 0 => .error .fuelExhausted
  | fuel + 1 =>
    andThen (parseTier c fuel t i) fun this i1 =>
    parseTokensLoop c fuel t ops this i1
termination_by structural fuel

/-- The operator loop of `Parser._parse_tokens`: while the current token is
one of this tier's operator kinds, wrap the accumulated node as the left
operand. -/
def parseTokensLoop (c : Ctx) (fuel : Nat) (t : Tier)
    (ops : List (TokenType × (Option Expr → Option Expr → Expr)))
    (this : Option Expr) (i : Nat) : Res (Option Expr) :=
  match fuel with
  | 0 => .error .fuelExhausted
  | fuel + 1 =>
    match pmatch c (ops.map Prod.fst) i with
    | (false, i1) => .ok (this, i1)
    | (true, i1) =>
      match prevT c i1 with
      | none => .error (.valueError "AttributeError")
      | some tk =>
        match ops.find? (fun p => p.1 == tk.tokenType) with
        | none => .error (.valueError "KeyError")
        | some p =>
          andThen (parseTier c fuel t i1) fun x i2 =>
          parseTokensLoop c fuel t ops (some (p.2 this x)) i2
termination_by structural fuel

/-- Dispatch to the operand parser handed to `Parser._parse_tokens` at each
of its five call shapes. -/
def parseTier (c : Ctx) (fuel : Nat) (t : Tier) (i : Nat) : Res (Option Expr) :=
  match fuel with
  | 0 => .error .fuelExhausted
  | fuel + 1 =>
    match t with
    | .equality => parseEquality c fuel i
    | .comparison => parseComparison c fuel i
    | .range => parseRange c fuel i
    | .factor => parseFactor c fuel i
    | .unary => parseUnary c fuel i
termination_by structural fuel

end

/-- The statement splitter inside `Parser.parse`: scan the raw tokens once,
starting a fresh chunk at each SEMICOLON, then appending the token to the
last chunk. -/
def splitChunks (tokens : List Token) : List (List Token) :=
  tokens.foldl
    (fun chunks t =>
      let chunks := if t.tokenType = .semicolon then chunks ++ [[]] else chunks
      chunks.dropLast ++ [chunks.getLastD [] ++ [t]])
    [[]]

/-- Fuel that (provably) suffices for one chunk; the Python code has no such
bound, and `parse_no_fuel_exhaustion` shows the bound is never hit. -/
def chunkFuel (chunk : List Token) : Nat := 40 * chunk.length + 40

/-- Render the current token for the unconsumed-input error.  Modelled from
the spec: the f-string `f"Invalid expression {self._curr}"` displays the
token via `sqlglot/tokens.py` (outside the verified sources); per the spec
the message pinpoints the offending token, so we render its text. -/
def currText (c : Ctx) (i : Nat) : String :=
  match currT c i with
  | some t => t.text
  | none => "None"

/-- One iteration of the chunk loop in `Parser.parse`: reset the cursor, run
the statement dispatcher, and require every token consumed. -/
def parseChunk (fns : String → Option Builder) (chunk : List Token) :
    Except PErr (Option Expr) :=
  let c : Ctx := ⟨fns, chunk⟩
  match parseStatement c (chunkFuel chunk) 0 with
  | .error e => .error e
  | .ok (e, i) =>
    if i < chunk.length then
      .error (.valueError ("Invalid expression " ++ currText c i))
    else
      .ok e

/-- The chunk loop of `Parser.parse`: parse each chunk in order, collecting
one root per chunk; the first failure aborts the whole call. -/
def parseChunks (fns : String → Option Builder) :
    List (List Token) → Except PErr (List (Option Expr))
  | [] => .ok []
  | chunk :: rest =>
    match parseChunk fns chunk with
    | .error e => .error e
    | .ok e =>
      match parseChunks fns rest with
      | .error e2 => .error e2
      | .ok l => .ok (e :: l)

/-- `Parser.parse`: split into chunks, then run the chunk loop. -/
def parse (fns : String → Option Builder) (tokens : List Token) :
    Except PErr (List (Option Expr)) :=
  parseChunks fns (splitChunks tokens)

/-- The built-in registry as a lookup function (`Parser()` with no
caller-supplied functions). -/
def defaultFns : String → Option Builder := fun n => defaultFunctions.lookup n

/-- The current token is absent or its kind lies outside `ts` — i.e. a
`_match` against `ts` would fail here. -/
def currKindNotIn (c : Ctx) (i : Nat) (ts : List TokenType) : Prop :=
  currT c i = none ∨ ∃ t, currT c i = some t ∧ t.tokenType ∉ ts

/-- Rank of a `_parse_csv` call shape in the fuel-sufficiency argument:
strictly above the rank of the item parser it repeats. -/
def itemRank : CsvKind → Nat
  | .expression => 27
  | .primary => 6
  | .cte => 29

/-- Rank of a `_parse_tokens` call shape in the fuel-sufficiency argument:
the rank of the operand tier it repeats. -/
def tierRank : Tier → Nat
  | .equality => 22
  | .comparison => 19
  | .range => 16
  | .factor => 12
  | .unary => 9

/-- A production result neither hit the artificial fuel bound nor moved the
cursor backwards past `i`. -/
def Safe {α : Type} (i : Nat) (res : Res α) : Prop :=
  res ≠ .error .fuelExhausted ∧ ∀ x j, res = .ok (x, j) → i ≤ j

/-- Fuel sufficiency for one production at rank `r`: whenever the remaining
fuel dominates `40 * (tokens remaining) + r`, the production neither runs
out of fuel nor moves the cursor backwards. -/
def Good {α : Type} (r fuel : Nat) (run : Ctx → Nat → Nat → Res α) : Prop :=
  ∀ (c : Ctx) (i : Nat), 40 * (c.tokens.length - i) + r ≤ fuel →
    Safe i (run c fuel i)

/-! ## Cursor lemmas -/

theorem currT_eq_get? (c : Ctx) (i : Nat) : currT c i = c.tokens.get? i := by
  simp [currT, safeGet]

theorem pmatch_false_of {c : Ctx} {i : Nat} {ts : List TokenType}
    (h : currKindNotIn c i ts) : pmatch c ts i = (false, i) := by
  rcases h with h | ⟨t, h, hn⟩
  · simp [pmatch, h]
  · simp [pmatch, h, hn]

theorem pmatch_fst_false {c : Ctx} {ts : List TokenType} {i : Nat}
    (h : (pmatch c ts i).1 = false) : pmatch c ts i = (false, i) := by
  unfold pmatch at h ⊢
  rcases hc : currT c i with _ | t
  · rfl
  · rw [hc] at h
    by_cases hm : t.tokenType ∈ ts
    · simp only [if_pos hm] at h; cases h
    · simp only [if_neg hm]

theorem pmatch_fst_true {c : Ctx} {ts : List TokenType} {i : Nat}
    (h : (pmatch c ts i).1 = true) :
    pmatch c ts i = (true, i + 1) ∧ i < c.tokens.length := by
  unfold pmatch at h ⊢
  rcases hc : currT c i with _ | t
  · rw [hc] at h; cases h
  · rw [hc] at h
    by_cases hm : t.tokenType ∈ ts
    · refine ⟨by simp only [if_pos hm], ?_⟩
      by_contra hge
      rw [currT_eq_get?, List.get?_eq_none.mpr (by omega)] at hc
      cases hc
    · simp only [if_neg hm] at h; cases h

theorem pmatch_le (c : Ctx) (ts : List TokenType) (i : Nat) :
    i ≤ (pmatch c ts i).2 := by
  rcases hb : (pmatch c ts i).1 with _ | _
  · rw [pmatch_fst_false hb]
  · rw [(pmatch_fst_true hb).1]
    exact Nat.le_succ i

theorem pmatch_cases (c : Ctx) (ts : List TokenType) (i : Nat) :
    pmatch c ts i = (false, i) ∨
      (pmatch c ts i = (true, i + 1) ∧ i < c.tokens.length) := by
  rcases hb : (pmatch c ts i).1 with _ | _
  · exact Or.inl (pmatch_fst_false hb)
  · exact Or.inr (pmatch_fst_true hb)

theorem pmatch_snd_le (c : Ctx) (ts : List TokenType) (i : Nat) :
    (pmatch c ts i).2 ≤ i + 1 := by
  rcases pmatch_cases c ts i with hp | ⟨hp, -⟩
  · rw [hp]
    omega
  · rw [hp]

theorem pmatch_pair_le {c : Ctx} {ts : List TokenType} {i j : Nat} {m : Bool}
    (hp : pmatch c ts i = (m, j)) : i ≤ j ∧ j ≤ i + 1 := by
  have h1 := pmatch_le c ts i
  have h2 := pmatch_snd_le c ts i
  rw [hp] at h1 h2
  exact ⟨h1, h2⟩

/-! ## Safety composition lemmas -/

theorem Safe.mono {α : Type} {i j : Nat} {res : Res α} (hij : i ≤ j)
    (h : Safe j res) : Safe i res :=
  ⟨h.1, fun x k hk => le_trans hij (h.2 x k hk)⟩

theorem safe_ok {α : Type} {i j : Nat} {x : α} (hij : i ≤ j) :
    Safe i (Except.ok (x, j) : Res α) := by
  refine ⟨by simp, ?_⟩
  intro y k hk
  have h2 : j = k := congrArg Prod.snd (Except.ok.inj hk)
  omega

theorem safe_error_of_ne {α : Type} {i : Nat} {e : PErr}
    (he : e ≠ .fuelExhausted) : Safe i (Except.error e : Res α) :=
  ⟨fun h => he (Except.error.inj h), fun _ _ h => Except.noConfusion h⟩

theorem safe_valueError {α : Type} {i : Nat} {m : String} :
    Safe i (Except.error (PErr.valueError m) : Res α) :=
  safe_error_of_ne (by simp)

theorem safe_indexError {α : Type} {i : Nat} :
    Safe i (Except.error PErr.indexError : Res α) :=
  safe_error_of_ne (by simp)

theorem safe_builderError {α : Type} {i : Nat} {e : BErr} :
    Safe i (Except.error e.toPErr : Res α) :=
  safe_error_of_ne (by cases e <;> simp [BErr.toPErr])

theorem safe_andThen {α β : Type} {i : Nat} {res : Res α} {f : α → Nat → Res β}
    (h1 : Safe i res)
    (h2 : ∀ a j, res = .ok (a, j) → i ≤ j → Safe j (f a j)) :
    Safe i (andThen res f) := by
  rcases hres : res with e | ⟨a, j⟩ <;> rw [hres] at h1 h2 <;> simp only [andThen]
  · exact safe_error_of_ne fun hh => h1.1 (by rw [hh])
  · exact Safe.mono (h1.2 a j rfl) (h2 a j rfl (h1.2 a j rfl))

/-! ## Claims -/

/-- C1: the claim says the statement splitter retains each semicolon in the
chunk being closed and that `parse` returns one root per chunk.  The code
appends a fresh chunk *before* appending the semicolon, so the terminator
becomes the first token of the *following* chunk, and parsing that chunk
fails at once with `Invalid expression` on the semicolon: any token sequence
containing a semicolon makes the whole `parse` call raise.  This theorem
evaluates the code at the failing input `SELECT a ; SELECT b`. -/
theorem c1_terminator_starts_next_chunk_and_parse_fails :
    splitChunks [⟨.select, "SELECT"⟩, ⟨.var, "a"⟩, ⟨.semicolon, ";"⟩,
        ⟨.select, "SELECT"⟩, ⟨.var, "b"⟩] =
      [[⟨.select, "SELECT"⟩, ⟨.var, "a"⟩],
       [⟨.semicolon, ";"⟩, ⟨.select, "SELECT"⟩, ⟨.var, "b"⟩]] ∧
    parse defaultFns [⟨.select, "SELECT"⟩, ⟨.var, "a"⟩, ⟨.semicolon, ";"⟩,
        ⟨.select, "SELECT"⟩, ⟨.var, "b"⟩] =
      .error (.valueError "Invalid expression ;") :=
  ⟨rfl, rfl⟩

/-- C2 counterexample: the claim says malformed input in which a side
keyword is not followed by JOIN never silently produces a best-effort tree
with the side token consumed and dropped.  But `SELECT x FROM t LEFT`
parses successfully: the trailing LEFT is consumed by `_parse_join`, no
Join is produced, and the resulting tree shows no trace of it. -/
theorem c2_trailing_side_keyword_silently_dropped :
    parse defaultFns [⟨.select, "SELECT"⟩, ⟨.var, "x"⟩, ⟨.fromT, "FROM"⟩,
        ⟨.var, "t"⟩, ⟨.leftT, "LEFT"⟩] =
      .ok [some (.fromE (some (.table (some ⟨.var, "t"⟩) none))
        (some (.select [some (.column ⟨.var, "x"⟩ none none)])))] := rfl

/-- C2 (amended): `_parse_join` commits to producing a Join node only upon
seeing the JOIN keyword — whenever the JOIN match fails after the optional
side and kind matches, it returns its input node unchanged, with the side
and kind tokens it matched consumed and dropped.  A best-effort tree is
then only avoided if later tokens remain to trigger the unconsumed-input
check; at end of input the drop is silent
(`c2_trailing_side_keyword_silently_dropped`). -/
theorem c2_join_not_committed_without_join_keyword
    (c : Ctx) (fuel i : Nat) (this : Option Expr)
    (h : (pmatch c [.join]
        (pmatch c [.inner, .outer, .cross]
          (pmatch c [.leftT, .rightT, .fullT] i).2).2).1 = false) :
    parseJoin c (fuel + 1) this i =
      .ok (this,
        (pmatch c [.inner, .outer, .cross]
          (pmatch c [.leftT, .rightT, .fullT] i).2).2) := by
  rcases h1 : pmatch c [.leftT, .rightT, .fullT] i with ⟨m1, i1⟩
  try rw [h1] at h
  dsimp only at h ⊢
  rcases h2 : pmatch c [.inner, .outer, .cross] i1 with ⟨m2, i2⟩
  try rw [h2] at h
  dsimp only at h ⊢
  have h3 := pmatch_fst_false h
  unfold parseJoin
  simp only [h1, h2, h3]

/-- C2 amended, witnessed at a concrete input: with the single token LEFT
remaining, `_parse_join` consumes it, produces no Join node, and returns
its input node unchanged with the cursor advanced past LEFT. -/
theorem c2_join_not_committed_witness :
    parseJoin (defaultCtx [⟨.leftT, "LEFT"⟩]) 5 (some (.select [])) 0 =
      .ok (some (.select []), 1) :=
  c2_join_not_committed_without_join_keyword
    (defaultCtx [⟨.leftT, "LEFT"⟩]) 4 0 (some (.select [])) (by decide)

/-- A successful chunk loop records exactly one successful chunk result per
chunk, in order. -/
theorem parseChunks_ok_map (fns : String → Option Builder) :
    ∀ (chunks : List (List Token)) (l : List (Option Expr)),
      parseChunks fns chunks = .ok l →
      chunks.map (parseChunk fns) = l.map Except.ok := by
  intro chunks
  induction chunks with
  | nil =>
    intro l h
    unfold parseChunks at h
    cases h
    rfl
  | cons ch rest ih =>
    intro l h
    unfold parseChunks at h
    rcases hc : parseChunk fns ch with e | e <;> rw [hc] at h
    · cases h
    · rcases hr : parseChunks fns rest with e2 | l2 <;> rw [hr] at h
      · cases h
      · cases h
        simp [hc, ih l2 hr]

/-- C3: after the statement dispatcher returns, `parse` requires the cursor
to have consumed every token of the chunk — a remainder is a hard
`Invalid expression` error naming the first unconsumed token — and a
failure in any chunk aborts the entire call: a successful `parse` returns
exactly one successful chunk result per chunk, so no partial-statement
results ever accompany a failure. -/
theorem c3_unconsumed_tokens_abort_parse :
    (∀ (fns : String → Option Builder) (chunk : List Token) (e : Option Expr)
        (i : Nat),
        parseStatement ⟨fns, chunk⟩ (chunkFuel chunk) 0 = .ok (e, i) →
        i < chunk.length →
        parseChunk fns chunk =
          .error (.valueError ("Invalid expression " ++ currText ⟨fns, chunk⟩ i))) ∧
    (∀ (fns : String → Option Builder) (tokens : List Token)
        (l : List (Option Expr)),
        parse fns tokens = .ok l →
        (splitChunks tokens).map (parseChunk fns) = l.map Except.ok) := by
  constructor
  · intro fns chunk e i h hlt
    simp only [parseChunk, h, if_pos hlt]
  · intro fns tokens l h
    exact parseChunks_ok_map fns (splitChunks tokens) l h

/-- C3 witnessed at a concrete input: a single stray NUMBER token parses to
an absent statement with nothing consumed, so the chunk fails naming that
token. -/
theorem c3_unconsumed_tokens_witness :
    parseChunk defaultFns [⟨.number, "1"⟩] =
      .error (.valueError "Invalid expression 1") :=
  c3_unconsumed_tokens_abort_parse.1 defaultFns [⟨.number, "1"⟩] none 0 rfl
    (by decide)

theorem currKindNotIn_sub {c : Ctx} {i : Nat} {ts ts' : List TokenType}
    (hsub : ts' ⊆ ts) (h : currKindNotIn c i ts) : currKindNotIn c i ts' := by
  rcases h with h | ⟨t, ht, hn⟩
  · exact Or.inl h
  · exact Or.inr ⟨t, ht, fun hm => hn (hsub hm)⟩

/-- C4: `_parse_select` threads the accumulating node through the clause
stages in the strict order FROM, JOIN, WHERE, GROUP BY, HAVING, ORDER BY,
UNION; each stage whose introducing keyword is absent returns its input
node unchanged without moving the cursor (so any subset of clauses in that
order parses, witnessed by the all-clause example), while reordering
present clauses — GROUP BY before WHERE — fails with an unconsumed-input
error. -/
theorem c4_clause_pipeline :
    (∀ (c : Ctx) (fuel : Nat) (this : Option Expr) (i : Nat),
        currKindNotIn c i [.fromT] →
        parseFrom c (fuel + 1) this i = .ok (this, i)) ∧
    (∀ (c : Ctx) (fuel : Nat) (this : Option Expr) (i : Nat),
        currKindNotIn c i [.leftT, .rightT, .fullT, .inner, .outer, .cross, .join] →
        parseJoin c (fuel + 1) this i = .ok (this, i)) ∧
    (∀ (c : Ctx) (fuel : Nat) (this : Option Expr) (i : Nat),
        currKindNotIn c i [.whereT] →
        parseWhere c (fuel + 1) this i = .ok (this, i)) ∧
    (∀ (c : Ctx) (fuel : Nat) (this : Option Expr) (i : Nat),
        currKindNotIn c i [.group] →
        parseGroup c (fuel + 1) this i = .ok (this, i)) ∧
    (∀ (c : Ctx) (fuel : Nat) (this : Option Expr) (i : Nat),
        currKindNotIn c i [.having] →
        parseHaving c (fuel + 1) this i = .ok (this, i)) ∧
    (∀ (c : Ctx) (fuel : Nat) (this : Option Expr) (i : Nat),
        currKindNotIn c i [.order] →
        parseOrder c (fuel + 1) this i = .ok (this, i)) ∧
    (∀ (c : Ctx) (fuel : Nat) (this : Option Expr) (i : Nat),
        currKindNotIn c i [.union] →
        parseUnion c (fuel + 1) this i = .ok (this, i)) ∧
    parse defaultFns [⟨.select, "SELECT"⟩, ⟨.var, "a"⟩, ⟨.fromT, "FROM"⟩,
        ⟨.var, "t"⟩, ⟨.whereT, "WHERE"⟩, ⟨.var, "x"⟩, ⟨.group, "GROUP"⟩,
        ⟨.byT, "BY"⟩, ⟨.var, "y"⟩, ⟨.having, "HAVING"⟩, ⟨.var, "z"⟩,
        ⟨.order, "ORDER"⟩, ⟨.byT, "BY"⟩, ⟨.var, "w"⟩] =
      .ok [some (.order (some (.having (some (.group (some (.whereE
          (some (.fromE (some (.table (some ⟨.var, "t"⟩) none))
            (some (.select [some (.column ⟨.var, "a"⟩ none none)]))))
          (some (.column ⟨.var, "x"⟩ none none))))
          [some (.column ⟨.var, "y"⟩ none none)]))
          (some (.column ⟨.var, "z"⟩ none none))))
          [some (.column ⟨.var, "w"⟩ none none)] false)] ∧
    parse defaultFns [⟨.select, "SELECT"⟩, ⟨.var, "a"⟩, ⟨.fromT, "FROM"⟩,
        ⟨.var, "t"⟩, ⟨.group, "GROUP"⟩, ⟨.byT, "BY"⟩, ⟨.var, "y"⟩,
        ⟨.whereT, "WHERE"⟩, ⟨.var, "x"⟩] =
      .error (.valueError "Invalid expression WHERE") := by
  refine ⟨?_, ?_, ?_, ?_, ?_, ?_, ?_, rfl, rfl⟩
  · intro c fuel this i h
    unfold parseFrom
    simp only [pmatch_false_of h]
  · intro c fuel this i h
    have hA := pmatch_false_of
      (@currKindNotIn_sub c i _ [.leftT, .rightT, .fullT]
        (by intro x hx; fin_cases hx <;> decide) h)
    have hB := pmatch_false_of
      (@currKindNotIn_sub c i _ [.inner, .outer, .cross]
        (by intro x hx; fin_cases hx <;> decide) h)
    have hC := pmatch_false_of
      (@currKindNotIn_sub c i _ [.join]
        (by intro x hx; fin_cases hx; decide) h)
    unfold parseJoin
    simp only [hA, hB, hC]
  · intro c fuel this i h
    unfold parseWhere
    simp only [pmatch_false_of h]
  · intro c fuel this i h
    unfold parseGroup
    simp only [pmatch_false_of h]
  · intro c fuel this i h
    unfold parseHaving
    simp only [pmatch_false_of h]
  · intro c fuel this i h
    unfold parseOrder
    simp only [pmatch_false_of h]
  · intro c fuel this i h
    unfold parseUnion
    simp only [pmatch_false_of h]

/-- C4 witnessed at a concrete input: with the current token GROUP, the
WHERE stage passes its input node through untouched. -/
theorem c4_clause_pipeline_witness :
    parseWhere (defaultCtx [⟨.group, "GROUP"⟩]) 3 (some (.select [])) 0 =
      .ok (some (.select []), 0) :=
  c4_clause_pipeline.2.2.1 (defaultCtx [⟨.group, "GROUP"⟩]) 2
    (some (.select [])) 0 (Or.inr ⟨⟨.group, "GROUP"⟩, rfl, by decide⟩)

/-- C5: a VAR identifier followed by `(` is uppercased and looked up in the
function registry and the builder applied to the argument list (lowercase
`sum(x)` yields a Sum node wrapping `x`); a name whose uppercase form is
absent from the registry is a hard failure naming the offending text; and
an IDENTIFIER-kind (quoted) name followed by `(` is a hard failure
whatever the registry holds and whatever tokens follow. -/
theorem c5_function_call_dispatch :
    (∀ (x : String),
        parseColumn (defaultCtx [⟨.var, "sum"⟩, ⟨.lParen, "("⟩, ⟨.var, x⟩,
            ⟨.rParen, ")"⟩]) 50 0 =
          .ok (some (.sum (some (.column ⟨.var, x⟩ none none))), 4)) ∧
    (∀ (fns : String → Option Builder) (name x : String) (fuel : Nat),
        fns name.toUpper = none →
        parseColumn ⟨fns, [⟨.var, name⟩, ⟨.lParen, "("⟩, ⟨.var, x⟩,
            ⟨.rParen, ")"⟩]⟩ (fuel + 1) 0 =
          .error (.valueError ("Unrecognized function name " ++ name))) ∧
    (∀ (fns : String → Option Builder) (name : String) (rest : List Token)
        (fuel : Nat),
        parseColumn ⟨fns, ⟨.identifier, name⟩ :: ⟨.lParen, "("⟩ :: rest⟩
            (fuel + 1) 0 =
          .error (.valueError "Unexpected (")) := by
  refine ⟨fun x => by with_unfolding_all rfl, ?_, ?_⟩
  · intro fns name x fuel h
    simp only [parseColumn]
    simp [pmatch, currT, prevT, safeGet, h]
  · intro fns name rest fuel
    simp only [parseColumn]
    simp [pmatch, currT, prevT, safeGet]

/-- C5 witnessed at a concrete input: `NOTAFUNC(x)` fails naming NOTAFUNC
against the built-in registry. -/
theorem c5_function_call_dispatch_witness :
    parseColumn (defaultCtx [⟨.var, "NOTAFUNC"⟩, ⟨.lParen, "("⟩, ⟨.var, "x"⟩,
        ⟨.rParen, ")"⟩]) 8 0 =
      .error (.valueError "Unrecognized function name NOTAFUNC") :=
  c5_function_call_dispatch.2.1 defaultFns "NOTAFUNC" "x" 7
    (by with_unfolding_all rfl)

set_option maxHeartbeats 1000000 in
/-- C6: every binary tier runs through the one generic precedence-climbing
helper, so same-tier chains are left-associative: for all operand names,
`a AND b AND c`, `a = b = c`, `a > b > c`, `a - b - c` (through a full
`parse` call) and `a * b * c` each produce the left-nested tree, and the
subtraction chain is never the right-nested tree. -/
theorem c6_binary_chains_left_associative (a b c : String) :
    parseConjunction (defaultCtx [⟨.var, a⟩, ⟨.andT, "AND"⟩, ⟨.var, b⟩,
        ⟨.andT, "AND"⟩, ⟨.var, c⟩]) 100 0 =
      .ok (some (.andE (some (.andE (some (.column ⟨.var, a⟩ none none))
        (some (.column ⟨.var, b⟩ none none))))
        (some (.column ⟨.var, c⟩ none none))), 5) ∧
    parseEquality (defaultCtx [⟨.var, a⟩, ⟨.eq, "="⟩, ⟨.var, b⟩,
        ⟨.eq, "="⟩, ⟨.var, c⟩]) 100 0 =
      .ok (some (.eq (some (.eq (some (.column ⟨.var, a⟩ none none))
        (some (.column ⟨.var, b⟩ none none))))
        (some (.column ⟨.var, c⟩ none none))), 5) ∧
    parseComparison (defaultCtx [⟨.var, a⟩, ⟨.gt, ">"⟩, ⟨.var, b⟩,
        ⟨.gt, ">"⟩, ⟨.var, c⟩]) 100 0 =
      .ok (some (.gt (some (.gt (some (.column ⟨.var, a⟩ none none))
        (some (.column ⟨.var, b⟩ none none))))
        (some (.column ⟨.var, c⟩ none none))), 5) ∧
    parse defaultFns [⟨.select, "SELECT"⟩, ⟨.var, a⟩, ⟨.dash, "-"⟩, ⟨.var, b⟩,
        ⟨.dash, "-"⟩, ⟨.var, c⟩] =
      .ok [some (.select [some (.minus (some (.minus
        (some (.column ⟨.var, a⟩ none none))
        (some (.column ⟨.var, b⟩ none none))))
        (some (.column ⟨.var, c⟩ none none)))])] ∧
    parseFactor (defaultCtx [⟨.var, a⟩, ⟨.star, "*"⟩, ⟨.var, b⟩,
        ⟨.star, "*"⟩, ⟨.var, c⟩]) 100 0 =
      .ok (some (.starE (some (.starE (some (.column ⟨.var, a⟩ none none))
        (some (.column ⟨.var, b⟩ none none))))
        (some (.column ⟨.var, c⟩ none none))), 5) ∧
    (some (Expr.minus (some (.minus (some (.column ⟨.var, a⟩ none none))
        (some (.column ⟨.var, b⟩ none none))))
        (some (.column ⟨.var, c⟩ none none))) ≠
      some (Expr.minus (some (.column ⟨.var, a⟩ none none))
        (some (.minus (some (.column ⟨.var, b⟩ none none))
          (some (.column ⟨.var, c⟩ none none)))))) := by
  refine ⟨rfl, rfl, rfl, rfl, rfl, ?_⟩
  intro h
  cases h

set_option maxHeartbeats 1000000 in
/-- C7: `FROM a JOIN b JOIN c` is left-nested — the root Join's `this` is
the table `c` and its `expression` is a Join of `b` with the FROM over
`a`, because `_parse_join` recurses on its own output wrapping the
accumulated result as `expression`; for all table names through
`_parse_select`, and through a full `parse` call at concrete names. -/
theorem c7_join_chain_left_nested (x a b c : String) :
    parseSelect (defaultCtx [⟨.select, "SELECT"⟩, ⟨.var, x⟩, ⟨.fromT, "FROM"⟩,
        ⟨.var, a⟩, ⟨.join, "JOIN"⟩, ⟨.var, b⟩, ⟨.join, "JOIN"⟩, ⟨.var, c⟩])
        100 0 =
      .ok (some (.join (some (.table (some ⟨.var, c⟩) none))
        (some (.join (some (.table (some ⟨.var, b⟩) none))
          (some (.fromE (some (.table (some ⟨.var, a⟩) none))
            (some (.select [some (.column ⟨.var, x⟩ none none)]))))
          none none none))
        none none none), 8) ∧
    parse defaultFns [⟨.select, "SELECT"⟩, ⟨.var, "x"⟩, ⟨.fromT, "FROM"⟩,
        ⟨.var, "a"⟩, ⟨.join, "JOIN"⟩, ⟨.var, "b"⟩, ⟨.join, "JOIN"⟩,
        ⟨.var, "c"⟩] =
      .ok [some (.join (some (.table (some ⟨.var, "c"⟩) none))
        (some (.join (some (.table (some ⟨.var, "b"⟩) none))
          (some (.fromE (some (.table (some ⟨.var, "a"⟩) none))
            (some (.select [some (.column ⟨.var, "x"⟩ none none)]))))
          none none none))
        none none none)] :=
  ⟨rfl, rfl⟩

/-- C8: CAST accepts exactly `( expr AS <type-token> )` with the type token
drawn from the fixed closed set of thirteen type kinds — for every kind in
the set the Cast node's `to` field is bound to that type token, and for
every kind outside the set the parse is a hard `Expected type after CAST`
failure. -/
theorem c8_cast_closed_type_set :
    (∀ (k : TokenType) (s x : String), k ∈ typeTokens →
        parseCast (defaultCtx [⟨.lParen, "("⟩, ⟨.var, x⟩, ⟨.alias, "AS"⟩,
            ⟨k, s⟩, ⟨.rParen, ")"⟩]) 50 0 =
          .ok (some (.cast (some (.column ⟨.var, x⟩ none none))
            (some ⟨k, s⟩)), 5)) ∧
    (∀ (k : TokenType) (s x : String), k ∉ typeTokens →
        parseCast (defaultCtx [⟨.lParen, "("⟩, ⟨.var, x⟩, ⟨.alias, "AS"⟩,
            ⟨k, s⟩, ⟨.rParen, ")"⟩]) 50 0 =
          .error (.valueError "Expected type after CAST")) ∧
    typeTokens = [.boolean, .tinyint, .smallint, .intT, .bigint, .floatT,
      .doubleT, .decimal, .char, .varchar, .text, .binary, .json] := by
  refine ⟨?_, ?_, rfl⟩
  · intro k s x h
    fin_cases h <;> rfl
  · intro k s x h
    cases k <;> first | rfl | exact absurd (by decide) h

/-- C8 witnessed at concrete inputs: `CAST(x AS INT)` succeeds with `to`
bound to the INT token, and `CAST(x AS FOOBAR)` (FOOBAR being an ordinary
VAR token) fails with the type-recognition error. -/
theorem c8_cast_closed_type_set_witness :
    parseCast (defaultCtx [⟨.lParen, "("⟩, ⟨.var, "x"⟩, ⟨.alias, "AS"⟩,
        ⟨.intT, "INT"⟩, ⟨.rParen, ")"⟩]) 50 0 =
      .ok (some (.cast (some (.column ⟨.var, "x"⟩ none none))
        (some ⟨.intT, "INT"⟩)), 5) ∧
    parseCast (defaultCtx [⟨.lParen, "("⟩, ⟨.var, "x"⟩, ⟨.alias, "AS"⟩,
        ⟨.var, "FOOBAR"⟩, ⟨.rParen, ")"⟩]) 50 0 =
      .error (.valueError "Expected type after CAST") :=
  ⟨c8_cast_closed_type_set.1 .intT "INT" "x" (by decide),
   c8_cast_closed_type_set.2.1 .var "FOOBAR" "x" (by decide)⟩

/-- C9 counterexample: the claim quantifies over *every* registered
function name, but `IF()` aborts with a list-index error: `_parse_csv`
produces the one-element list `[None]` and the IF builder accesses
`args[1]` and `args[2]`, which do not exist. -/
theorem c9_if_empty_args_index_error :
    parse defaultFns [⟨.select, "SELECT"⟩, ⟨.var, "IF"⟩, ⟨.lParen, "("⟩,
        ⟨.rParen, ")"⟩] = .error .indexError := by with_unfolding_all rfl

/-- C9 (amended): an empty argument list reaches the builder as the
one-element list `[None]` (`_parse_csv` always yields at least one item and
a column parse that matches nothing returns an absent expression), so every
registered function whose builder touches only `args[0]` or the whole list
— all of them except IF — parses with its argument field absent. -/
theorem c9_empty_argument_calls :
    parseCsv (defaultCtx [⟨.var, "SUM"⟩, ⟨.lParen, "("⟩, ⟨.rParen, ")"⟩]) 40
        .expression 2 = .ok ([none], 2) ∧
    parse defaultFns [⟨.select, "SELECT"⟩, ⟨.var, "AVG"⟩, ⟨.lParen, "("⟩,
        ⟨.rParen, ")"⟩] = .ok [some (.select [some (.avg none)])] ∧
    parse defaultFns [⟨.select, "SELECT"⟩, ⟨.var, "CEIL"⟩, ⟨.lParen, "("⟩,
        ⟨.rParen, ")"⟩] = .ok [some (.select [some (.ceil none)])] ∧
    parse defaultFns [⟨.select, "SELECT"⟩, ⟨.var, "COALESCE"⟩, ⟨.lParen, "("⟩,
        ⟨.rParen, ")"⟩] = .ok [some (.select [some (.coalesce [none])])] ∧
    parse defaultFns [⟨.select, "SELECT"⟩, ⟨.var, "FIRST"⟩, ⟨.lParen, "("⟩,
        ⟨.rParen, ")"⟩] = .ok [some (.select [some (.first none)])] ∧
    parse defaultFns [⟨.select, "SELECT"⟩, ⟨.var, "FLOOR"⟩, ⟨.lParen, "("⟩,
        ⟨.rParen, ")"⟩] = .ok [some (.select [some (.floor none)])] ∧
    parse defaultFns [⟨.select, "SELECT"⟩, ⟨.var, "LAST"⟩, ⟨.lParen, "("⟩,
        ⟨.rParen, ")"⟩] = .ok [some (.select [some (.last none)])] ∧
    parse defaultFns [⟨.select, "SELECT"⟩, ⟨.var, "LN"⟩, ⟨.lParen, "("⟩,
        ⟨.rParen, ")"⟩] = .ok [some (.select [some (.ln none)])] ∧
    parse defaultFns [⟨.select, "SELECT"⟩, ⟨.var, "MAX"⟩, ⟨.lParen, "("⟩,
        ⟨.rParen, ")"⟩] = .ok [some (.select [some (.maxE none)])] ∧
    parse defaultFns [⟨.select, "SELECT"⟩, ⟨.var, "MIN"⟩, ⟨.lParen, "("⟩,
        ⟨.rParen, ")"⟩] = .ok [some (.select [some (.minE none)])] ∧
    parse defaultFns [⟨.select, "SELECT"⟩, ⟨.var, "SUM"⟩, ⟨.lParen, "("⟩,
        ⟨.rParen, ")"⟩] = .ok [some (.select [some (.sum none)])] ∧
    parse defaultFns [⟨.select, "SELECT"⟩, ⟨.var, "RANK"⟩, ⟨.lParen, "("⟩,
        ⟨.rParen, ")"⟩] = .ok [some (.select [some (.rank none)])] ∧
    parse defaultFns [⟨.select, "SELECT"⟩, ⟨.var, "ROW_NUMBER"⟩, ⟨.lParen, "("⟩,
        ⟨.rParen, ")"⟩] = .ok [some (.select [some (.rowNumber none)])] := by
  with_unfolding_all
    exact ⟨rfl, rfl, rfl, rfl, rfl, rfl, rfl, rfl, rfl, rfl, rfl, rfl, rfl⟩

/-- Fuel sufficiency and cursor monotonicity for every production of the
mutual grammar, at the rank assigned to each production: with fuel
dominating `40 * remaining + rank`, no production ever hits the artificial
fuel bound, and none moves the cursor backwards. -/
theorem goodAll : ∀ fuel : Nat,
    Good 2 fuel parseStatement ∧
    Good 28 fuel parseCte ∧
    Good 1 fuel parseSelect ∧
    (∀ this, Good 1 fuel (fun c f i => parseFrom c f this i)) ∧
    (∀ this, Good 1 fuel (fun c f i => parseJoin c f this i)) ∧
    Good 2 fuel parseTable ∧
    (∀ this, Good 1 fuel (fun c f i => parseWhere c f this i)) ∧
    (∀ this, Good 1 fuel (fun c f i => parseGroup c f this i)) ∧
    (∀ this, Good 1 fuel (fun c f i => parseHaving c f this i)) ∧
    (∀ this, Good 1 fuel (fun c f i => parseOrder c f this i)) ∧
    (∀ this, Good 1 fuel (fun c f i => parseUnion c f this i)) ∧
    Good 26 fuel parseExpression ∧
    Good 25 fuel parseConjunction ∧
    Good 22 fuel parseEquality ∧
    Good 19 fuel parseComparison ∧
    Good 16 fuel parseRange ∧
    Good 15 fuel parseTerm ∧
    Good 12 fuel parseFactor ∧
    Good 9 fuel parseUnary ∧
    Good 8 fuel parseSpecial ∧
    Good 7 fuel parseCase ∧
    (∀ acc, Good 6 fuel (fun c f i => parseCaseIfs c f acc i)) ∧
    Good 7 fuel parseCount ∧
    Good 7 fuel parseCast ∧
    Good 5 fuel parsePrimary ∧
    Good 4 fuel parseColumn ∧
    (∀ this, Good 3 fuel (fun c f i => parseBrackets c f this i)) ∧
    (∀ this, Good 2 fuel (fun c f i => parseWindow c f this i)) ∧
    (∀ this, Good 1 fuel (fun c f i => parseAlias c f this i)) ∧
    (∀ k, Good (itemRank k + 2) fuel (fun c f i => parseCsv c f k i)) ∧
    (∀ k acc, Good (itemRank k + 1) fuel
      (fun c f i => parseCsvLoop c f k acc i)) ∧
    (∀ k, Good (itemRank k) fuel (fun c f i => parseCsvItem c f k i)) ∧
    (∀ t ops, Good (tierRank t + 2) fuel
      (fun c f i => parseTokens c f t ops i)) ∧
    (∀ t ops this, Good (tierRank t + 1) fuel
      (fun c f i => parseTokensLoop c f t ops this i)) ∧
    (∀ t, Good (tierRank t + 1) fuel (fun c f i => parseTier c f t i)) := by
  have base : ∀ {α : Type} (r : Nat) (run : Ctx → Nat → Nat → Res α),
      1 ≤ r → Good r 0 run := by
    intro α r run hr c i hcond
    exact absurd hcond (by omega)
  intro fuel
  induction fuel with
  | zero =>
    refine ⟨base 2 _ (by omega), base 28 _ (by omega), base 1 _ (by omega),
      fun this => base 1 _ (by omega), fun this => base 1 _ (by omega),
      base 2 _ (by omega), fun this => base 1 _ (by omega),
      fun this => base 1 _ (by omega), fun this => base 1 _ (by omega),
      fun this => base 1 _ (by omega), fun this => base 1 _ (by omega),
      base 26 _ (by omega), base 25 _ (by omega), base 22 _ (by omega),
      base 19 _ (by omega), base 16 _ (by omega), base 15 _ (by omega),
      base 12 _ (by omega), base 9 _ (by omega), base 8 _ (by omega),
      base 7 _ (by omega), fun acc => base 6 _ (by omega),
      base 7 _ (by omega), base 7 _ (by omega), base 5 _ (by omega),
      base 4 _ (by omega), fun this => base 3 _ (by omega),
      fun this => base 2 _ (by omega), fun this => base 1 _ (by omega),
      fun k => base _ _ (by omega), fun k acc => base _ _ (by omega),
      fun k => base _ _ (by cases k <;> decide),
      fun t ops => base _ _ (by omega),
      fun t ops this => base _ _ (by omega),
      fun t => base _ _ (by omega)⟩
  | succ fuel ih =>
    obtain ⟨ihStatement, ihCte, ihSelect, ihFrom, ihJoin, ihTable, ihWhere,
      ihGroup, ihHaving, ihOrder, ihUnion, ihExpression, ihConjunction,
      ihEquality, ihComparison, ihRange, ihTerm, ihFactor, ihUnary,
      ihSpecial, ihCase, ihCaseIfs, ihCount, ihCast, ihPrimary, ihColumn,
      ihBrackets, ihWindow, ihAlias, ihCsv, ihCsvLoop, ihCsvItem, ihTokens,
      ihTokensLoop, ihTier⟩ := ih
    refine ⟨?_, ?_, ?_, ?_, ?_, ?_, ?_, ?_, ?_, ?_, ?_, ?_, ?_, ?_, ?_, ?_,
      ?_, ?_, ?_, ?_, ?_, ?_, ?_, ?_, ?_, ?_, ?_, ?_, ?_, ?_, ?_, ?_, ?_,
      ?_, ?_⟩
    -- parseStatement
    · intro c i h
      rcases pmatch_cases c [.withT] i with hp | ⟨hp, hlt⟩ <;>
        unfold parseStatement <;> simp only [hp]
      · exact ihSelect c i (by omega)
      · refine Safe.mono (Nat.le_succ i)
          (safe_andThen (ihCsv .cte c (i + 1) (by simp [itemRank]; omega)) ?_)
        intro exprs i2 hok h2
        refine safe_andThen (ihSelect c i2 (by omega)) ?_
        intro sel i3 hok3 h3
        exact safe_ok le_rfl
    -- parseCte
    · intro c i h
      rcases pmatch_cases c [.identifier, .var] i with hp | ⟨hp, hlt⟩ <;>
        unfold parseCte <;> simp only [hp]
      · exact safe_valueError
      · rcases pmatch_cases c [.alias] (i + 1) with hp2 | ⟨hp2, hlt2⟩ <;>
          simp only [hp2]
        · exact safe_valueError
        · refine Safe.mono (by omega)
            (safe_andThen (ihTable c (i + 2) (by omega)) ?_)
          intro tbl i3 hok h3
          exact safe_ok le_rfl
    -- parseSelect
    · intro c i h
      rcases pmatch_cases c [.select] i with hp | ⟨hp, hlt⟩ <;>
        unfold parseSelect <;> simp only [hp]
      · exact safe_ok le_rfl
      · refine Safe.mono (Nat.le_succ i)
          (safe_andThen (ihCsv .expression c (i + 1)
            (by simp [itemRank]; omega)) ?_)
        intro exprs i2 hok h2
        refine safe_andThen (ihFrom _ c i2 (by omega)) ?_
        intro t1 i3 hok3 h3
        refine safe_andThen (ihJoin t1 c i3 (by omega)) ?_
        intro t2 i4 hok4 h4
        refine safe_andThen (ihWhere t2 c i4 (by omega)) ?_
        intro t3 i5 hok5 h5
        refine safe_andThen (ihGroup t3 c i5 (by omega)) ?_
        intro t4 i6 hok6 h6
        refine safe_andThen (ihHaving t4 c i6 (by omega)) ?_
        intro t5 i7 hok7 h7
        refine safe_andThen (ihOrder t5 c i7 (by omega)) ?_
        intro t6 i8 hok8 h8
        exact ihUnion t6 c i8 (by omega)
    -- parseFrom
    · intro this c i h
      rcases pmatch_cases c [.fromT] i with hp | ⟨hp, hlt⟩ <;>
        unfold parseFrom <;> simp only [hp]
      · exact safe_ok le_rfl
      · refine Safe.mono (Nat.le_succ i)
          (safe_andThen (ihTable c (i + 1) (by omega)) ?_)
        intro tbl i2 hok h2
        exact safe_ok le_rfl
    -- parseJoin
    · intro this c i h
      rcases hp1 : pmatch c [.leftT, .rightT, .fullT] i with ⟨m1, i1⟩
      obtain ⟨hb1, hb1s⟩ := pmatch_pair_le hp1
      rcases hp2 : pmatch c [.inner, .outer, .cross] i1 with ⟨m2, i2⟩
      obtain ⟨hb2, hb2s⟩ := pmatch_pair_le hp2
      rcases pmatch_cases c [.join] i2 with hp3 | ⟨hp3, hlt3⟩ <;>
        unfold parseJoin <;> simp only [hp1, hp2, hp3]
      · exact safe_ok (by omega)
      · refine Safe.mono (by omega)
          (safe_andThen (ihTable c (i2 + 1) (by omega)) ?_)
        intro expression i4 hok h4
        rcases pmatch_cases c [.onT] i4 with hp5 | ⟨hp5, hlt5⟩ <;>
          simp only [hp5]
        · exact ihJoin _ c i4 (by omega)
        · refine Safe.mono (Nat.le_succ i4)
            (safe_andThen (ihExpression c (i4 + 1) (by omega)) ?_)
          intro onV i6 hok6 h6
          exact ihJoin _ c i6 (by omega)
    -- parseTable
    · intro c i h
      rcases pmatch_cases c [.lParen] i with hp | ⟨hp, hlt⟩ <;>
        unfold parseTable <;> simp only [hp]
      · rcases hp2 : pmatch c [.var, .identifier] i with ⟨m2, i2⟩
        obtain ⟨hb2, hb2s⟩ := pmatch_pair_le hp2
        rcases pmatch_cases c [.dot] i2 with hp3 | ⟨hp3, hlt3⟩ <;>
          simp only [hp2, hp3]
        · exact Safe.mono (by omega) (ihAlias _ c i2 (by omega))
        · rcases pmatch_cases c [.var, .identifier] (i2 + 1)
            with hp4 | ⟨hp4, hlt4⟩ <;> simp only [hp4]
          · exact safe_valueError
          · exact Safe.mono (by omega) (ihAlias _ c (i2 + 2) (by omega))
      · refine Safe.mono (Nat.le_succ i)
          (safe_andThen (ihSelect c (i + 1) (by omega)) ?_)
        intro nested i2 hok h2
        rcases pmatch_cases c [.rParen] i2 with hp2 | ⟨hp2, hlt2⟩ <;>
          simp only [hp2]
        · exact safe_valueError
        · exact Safe.mono (by omega) (ihAlias _ c (i2 + 1) (by omega))
    -- parseWhere
    · intro this c i h
      rcases pmatch_cases c [.whereT] i with hp | ⟨hp, hlt⟩ <;>
        unfold parseWhere <;> simp only [hp]
      · exact safe_ok le_rfl
      · refine Safe.mono (Nat.le_succ i)
          (safe_andThen (ihConjunction c (i + 1) (by omega)) ?_)
        intro e i2 hok h2
        exact safe_ok le_rfl
    -- parseGroup
    · intro this c i h
      rcases pmatch_cases c [.group] i with hp | ⟨hp, hlt⟩ <;>
        unfold parseGroup <;> simp only [hp]
      · exact safe_ok le_rfl
      · rcases pmatch_cases c [.byT] (i + 1) with hp2 | ⟨hp2, hlt2⟩ <;>
          simp only [hp2]
        · exact safe_valueError
        · refine Safe.mono (by omega)
            (safe_andThen (ihCsv .primary c (i + 2)
              (by simp [itemRank]; omega)) ?_)
          intro exprs i3 hok h3
          exact safe_ok le_rfl
    -- parseHaving
    · intro this c i h
      rcases pmatch_cases c [.having] i with hp | ⟨hp, hlt⟩ <;>
        unfold parseHaving <;> simp only [hp]
      · exact safe_ok le_rfl
      · refine Safe.mono (Nat.le_succ i)
          (safe_andThen (ihConjunction c (i + 1) (by omega)) ?_)
        intro e i2 hok h2
        exact safe_ok le_rfl
    -- parseOrder
    · intro this c i h
      rcases pmatch_cases c [.order] i with hp | ⟨hp, hlt⟩ <;>
        unfold parseOrder <;> simp only [hp]
      · exact safe_ok le_rfl
      · rcases pmatch_cases c [.byT] (i + 1) with hp2 | ⟨hp2, hlt2⟩ <;>
          simp only [hp2]
        · exact safe_valueError
        · refine Safe.mono (by omega)
            (safe_andThen (ihCsv .primary c (i + 2)
              (by simp [itemRank]; omega)) ?_)
          intro exprs i3 hok h3
          rcases hp4 : pmatch c [.desc] i3 with ⟨md, i4⟩
          obtain ⟨hb4, hb4s⟩ := pmatch_pair_le hp4
          simp only [hp4]
          exact safe_ok (by omega)
    -- parseUnion
    · intro this c i h
      rcases pmatch_cases c [.union] i with hp | ⟨hp, hlt⟩ <;>
        unfold parseUnion <;> simp only [hp]
      · exact safe_ok le_rfl
      · rcases hp2 : pmatch c [.allT] (i + 1) with ⟨mall, i2⟩
        obtain ⟨hb2, hb2s⟩ := pmatch_pair_le hp2
        simp only [hp2]
        refine Safe.mono (by omega)
          (safe_andThen (ihSelect c i2 (by omega)) ?_)
        intro sel i3 hok h3
        exact safe_ok le_rfl
    -- parseExpression
    · intro c i h
      unfold parseExpression
      refine safe_andThen (ihConjunction c i (by omega)) ?_
      intro e i1 hok h1
      refine safe_andThen (ihWindow e c i1 (by omega)) ?_
      intro w i2 hok2 h2
      exact ihAlias w c i2 (by omega)
    -- parseConjunction
    · intro c i h
      unfold parseConjunction
      exact ihTokens .equality conjOps c i (by simp [tierRank]; omega)
    -- parseEquality
    · intro c i h
      unfold parseEquality
      exact ihTokens .comparison eqOps c i (by simp [tierRank]; omega)
    -- parseComparison
    · intro c i h
      unfold parseComparison
      exact ihTokens .range compOps c i (by simp [tierRank]; omega)
    -- parseRange
    · intro c i h
      unfold parseRange
      refine safe_andThen (ihTerm c i (by omega)) ?_
      intro this i1 hok h1
      rcases pmatch_cases c [.inT] i1 with hp | ⟨hp, hlt⟩ <;> simp only [hp]
      · rcases pmatch_cases c [.between] i1 with hp2 | ⟨hp2, hlt2⟩ <;>
          simp only [hp2]
        · exact safe_ok le_rfl
        · refine Safe.mono (Nat.le_succ i1)
            (safe_andThen (ihPrimary c (i1 + 1) (by omega)) ?_)
          intro low i4 hok4 h4
          rcases hp5 : pmatch c [.andT] i4 with ⟨mand, i5⟩
          obtain ⟨hb5, hb5s⟩ := pmatch_pair_le hp5
          simp only [hp5]
          refine Safe.mono hb5 (safe_andThen (ihPrimary c i5 (by omega)) ?_)
          intro high i6 hok6 h6
          exact safe_ok le_rfl
      · rcases pmatch_cases c [.lParen] (i1 + 1) with hp2 | ⟨hp2, hlt2⟩ <;>
          simp only [hp2]
        · exact safe_valueError
        · refine Safe.mono (by omega)
            (safe_andThen (ihCsv .primary c (i1 + 2)
              (by simp [itemRank]; omega)) ?_)
          intro exprs i4 hok4 h4
          rcases pmatch_cases c [.rParen] i4 with hp5 | ⟨hp5, hlt5⟩ <;>
            simp only [hp5]
          · exact safe_valueError
          · exact safe_ok (by omega)
    -- parseTerm
    · intro c i h
      unfold parseTerm
      exact ihTokens .factor termOps c i (by simp [tierRank]; omega)
    -- parseFactor
    · intro c i h
      unfold parseFactor
      exact ihTokens .unary factorOps c i (by simp [tierRank]; omega)
    -- parseUnary
    · intro c i h
      rcases pmatch_cases c [.notT] i with hp | ⟨hp, hlt⟩ <;>
        unfold parseUnary <;> simp only [hp]
      · rcases pmatch_cases c [.dash] i with hp2 | ⟨hp2, hlt2⟩ <;>
          simp only [hp2]
        · exact ihSpecial c i (by omega)
        · refine Safe.mono (Nat.le_succ i)
            (safe_andThen (ihUnary c (i + 1) (by omega)) ?_)
          intro u i3 hok h3
          exact safe_ok le_rfl
      · refine Safe.mono (Nat.le_succ i)
          (safe_andThen (ihUnary c (i + 1) (by omega)) ?_)
        intro u i2 hok h2
        exact safe_ok le_rfl
    -- parseSpecial
    · intro c i h
      rcases pmatch_cases c [.cast] i with hp | ⟨hp, hlt⟩ <;>
        unfold parseSpecial <;> simp only [hp]
      · rcases pmatch_cases c [.caseT] i with hp2 | ⟨hp2, hlt2⟩ <;>
          simp only [hp2]
        · rcases pmatch_cases c [.count] i with hp3 | ⟨hp3, hlt3⟩ <;>
            simp only [hp3]
          · exact ihPrimary c i (by omega)
          · exact Safe.mono (Nat.le_succ i) (ihCount c (i + 1) (by omega))
        · exact Safe.mono (Nat.le_succ i) (ihCase c (i + 1) (by omega))
      · exact Safe.mono (Nat.le_succ i) (ihCast c (i + 1) (by omega))
    -- parseCase
    · intro c i h
      unfold parseCase
      refine safe_andThen (ihCaseIfs [] c i (by omega)) ?_
      intro ifs i1 hok h1
      rcases pmatch_cases c [.elseT] i1 with hp | ⟨hp, hlt⟩ <;> simp only [hp]
      · rcases pmatch_cases c [.endT] i1 with hp2 | ⟨hp2, hlt2⟩ <;>
          simp only [hp2]
        · exact safe_valueError
        · exact safe_ok (by omega)
      · refine Safe.mono (Nat.le_succ i1)
          (safe_andThen (ihExpression c (i1 + 1) (by omega)) ?_)
        intro d i3 hok3 h3
        rcases pmatch_cases c [.endT] i3 with hp4 | ⟨hp4, hlt4⟩ <;>
          simp only [hp4]
        · exact safe_valueError
        · exact safe_ok (by omega)
    -- parseCaseIfs
    · intro acc c i h
      rcases pmatch_cases c [.whenT] i with hp | ⟨hp, hlt⟩ <;>
        unfold parseCaseIfs <;> simp only [hp]
      · exact safe_ok le_rfl
      · refine Safe.mono (Nat.le_succ i)
          (safe_andThen (ihExpression c (i + 1) (by omega)) ?_)
        intro condition i2 hok h2
        rcases hp3 : pmatch c [.thenT] i2 with ⟨mthen, i3⟩
        obtain ⟨hb3, hb3s⟩ := pmatch_pair_le hp3
        simp only [hp3]
        refine Safe.mono hb3 (safe_andThen (ihExpression c i3 (by omega)) ?_)
        intro thenV i4 hok4 h4
        exact ihCaseIfs _ c i4 (by omega)
    -- parseCount
    · intro c i h
      rcases pmatch_cases c [.lParen] i with hp | ⟨hp, hlt⟩ <;>
        unfold parseCount <;> simp only [hp]
      · exact safe_valueError
      · rcases hp2 : pmatch c [.distinct] (i + 1) with ⟨md, i2⟩
        obtain ⟨hb2, hb2s⟩ := pmatch_pair_le hp2
        simp only [hp2]
        refine Safe.mono (by omega)
          (safe_andThen (ihConjunction c i2 (by omega)) ?_)
        intro e i3 hok h3
        rcases pmatch_cases c [.rParen] i3 with hp4 | ⟨hp4, hlt4⟩ <;>
          simp only [hp4]
        · exact safe_valueError
        · exact safe_ok (by omega)
    -- parseCast
    · intro c i h
      rcases pmatch_cases c [.lParen] i with hp | ⟨hp, hlt⟩ <;>
        unfold parseCast <;> simp only [hp]
      · exact safe_valueError
      · refine Safe.mono (Nat.le_succ i)
          (safe_andThen (ihConjunction c (i + 1) (by omega)) ?_)
        intro e i2 hok h2
        rcases pmatch_cases c [.alias] i2 with hp3 | ⟨hp3, hlt3⟩ <;>
          simp only [hp3]
        · exact safe_valueError
        · rcases pmatch_cases c typeTokens (i2 + 1) with hp4 | ⟨hp4, hlt4⟩ <;>
            simp only [hp4]
          · exact safe_valueError
          · rcases pmatch_cases c [.rParen] (i2 + 2)
              with hp5 | ⟨hp5, hlt5⟩ <;> simp only [hp5]
            · exact safe_valueError
            · exact safe_ok (by omega)
    -- parsePrimary
    · intro c i h
      rcases pmatch_cases c [.string, .number, .star, .nullT] i
        with hp | ⟨hp, hlt⟩ <;> unfold parsePrimary <;> simp only [hp]
      · rcases pmatch_cases c [.lParen] i with hp2 | ⟨hp2, hlt2⟩ <;>
          simp only [hp2]
        · exact ihColumn c i (by omega)
        · refine Safe.mono (Nat.le_succ i)
            (safe_andThen (ihExpression c (i + 1) (by omega)) ?_)
          intro e i3 hok h3
          rcases pmatch_cases c [.rParen] i3 with hp4 | ⟨hp4, hlt4⟩ <;>
            simp only [hp4]
          · exact safe_valueError
          · exact safe_ok (by omega)
      · exact safe_ok (by omega)
    -- parseColumn
    · intro c i h
      rcases pmatch_cases c [.var, .identifier] i with hp | ⟨hp, hlt⟩ <;>
        unfold parseColumn <;> simp only [hp]
      · exact safe_ok le_rfl
      · rcases hprev : prevT c (i + 1) with _ | tk <;> simp only [hprev]
        · exact safe_valueError
        · rcases pmatch_cases c [.lParen] (i + 1) with hp2 | ⟨hp2, hlt2⟩ <;>
            simp only [hp2]
          · rcases pmatch_cases c [.dot] (i + 1) with hp3 | ⟨hp3, hlt3⟩ <;>
              simp only [hp3]
            · exact Safe.mono (Nat.le_succ i)
                (ihBrackets _ c (i + 1) (by omega))
            · rcases pmatch_cases c columnTokens (i + 2)
                with hp4 | ⟨hp4, hlt4⟩ <;> simp only [hp4]
              · exact safe_valueError
              · rcases hprev2 : prevT c (i + 3) with _ | tk2 <;>
                  simp only [hprev2]
                · exact safe_valueError
                · rcases pmatch_cases c [.dot] (i + 3)
                    with hp5 | ⟨hp5, hlt5⟩ <;> simp only [hp5]
                  · exact Safe.mono (by omega)
                      (ihBrackets _ c (i + 3) (by omega))
                  · rcases pmatch_cases c columnTokens (i + 4)
                      with hp6 | ⟨hp6, hlt6⟩ <;> simp only [hp6]
                    · exact safe_valueError
                    · rcases hprev3 : prevT c (i + 5) with _ | tk3 <;>
                        simp only [hprev3]
                      · exact safe_valueError
                      · exact Safe.mono (by omega)
                          (ihBrackets _ c (i + 5) (by omega))
          · by_cases hid : tk.tokenType = .identifier
            · simp only [if_pos hid]
              exact safe_valueError
            · simp only [if_neg hid]
              rcases hfn : c.fns tk.text.toUpper with _ | builder <;>
                simp only [hfn]
              · exact safe_valueError
              · refine Safe.mono (by omega)
                  (safe_andThen (ihCsv .expression c (i + 2)
                    (by simp [itemRank]; omega)) ?_)
                intro args i3 hok h3
                rcases hbr : builder args with e | fe <;> simp only [hbr]
                · exact safe_builderError
                · rcases pmatch_cases c [.rParen] i3
                    with hp4 | ⟨hp4, hlt4⟩ <;> simp only [hp4]
                  · exact safe_valueError
                  · exact safe_ok (by omega)
    -- parseBrackets
    · intro this c i h
      rcases pmatch_cases c [.lBracket] i with hp | ⟨hp, hlt⟩ <;>
        unfold parseBrackets <;> simp only [hp]
      · exact safe_ok le_rfl
      · refine Safe.mono (Nat.le_succ i)
          (safe_andThen (ihCsv .primary c (i + 1)
            (by simp [itemRank]; omega)) ?_)
        intro exprs i2 hok h2
        rcases pmatch_cases c [.rBracket] i2 with hp3 | ⟨hp3, hlt3⟩ <;>
          simp only [hp3]
        · exact safe_valueError
        · exact safe_ok (by omega)
    -- parseWindow
    · intro this c i h
      rcases pmatch_cases c [.over] i with hp | ⟨hp, hlt⟩ <;>
        unfold parseWindow <;> simp only [hp]
      · exact safe_ok le_rfl
      · rcases pmatch_cases c [.lParen] (i + 1) with hp2 | ⟨hp2, hlt2⟩ <;>
          simp only [hp2]
        · exact safe_valueError
        · rcases pmatch_cases c [.partition] (i + 2)
            with hp3 | ⟨hp3, hlt3⟩ <;> simp only [hp3]
          · refine Safe.mono (by omega)
              (safe_andThen (ihOrder none c (i + 2) (by omega)) ?_)
            intro ord i4 hok h4
            rcases pmatch_cases c [.rParen] i4 with hp5 | ⟨hp5, hlt5⟩ <;>
              simp only [hp5]
            · exact safe_valueError
            · exact safe_ok (by omega)
          · rcases pmatch_cases c [.byT] (i + 3) with hp4 | ⟨hp4, hlt4⟩ <;>
              simp only [hp4]
            · exact safe_valueError
            · refine Safe.mono (by omega)
                (safe_andThen (ihCsv .primary c (i + 4)
                  (by simp [itemRank]; omega)) ?_)
              intro part i5 hok h5
              refine safe_andThen (ihOrder none c i5 (by omega)) ?_
              intro ord i6 hok6 h6
              rcases pmatch_cases c [.rParen] i6 with hp7 | ⟨hp7, hlt7⟩ <;>
                simp only [hp7]
              · exact safe_valueError
              · exact safe_ok (by omega)
    -- parseAlias
    · intro this c i h
      unfold parseAlias
      rcases hp : pmatch c [.alias] i with ⟨ma, i1⟩
      obtain ⟨hb1, hb1s⟩ := pmatch_pair_le hp
      simp only [hp]
      rcases pmatch_cases c [.identifier, .var] i1 with hp2 | ⟨hp2, hlt2⟩ <;>
        simp only [hp2]
      · exact safe_ok (by omega)
      · exact safe_ok (by omega)
    -- parseCsv
    · intro k c i h
      unfold parseCsv
      refine safe_andThen (ihCsvItem k c i (by omega)) ?_
      intro x i1 hok h1
      exact ihCsvLoop k [x] c i1 (by omega)
    -- parseCsvLoop
    · intro k acc c i h
      rcases pmatch_cases c [.comma] i with hp | ⟨hp, hlt⟩ <;>
        unfold parseCsvLoop <;> simp only [hp]
      · exact safe_ok le_rfl
      · refine Safe.mono (Nat.le_succ i)
          (safe_andThen (ihCsvItem k c (i + 1) (by omega)) ?_)
        intro x i2 hok h2
        exact ihCsvLoop k (acc ++ [x]) c i2 (by omega)
    -- parseCsvItem
    · intro k c i h
      unfold parseCsvItem
      cases k
      · exact ihExpression c i (by simp [itemRank] at h; omega)
      · exact ihPrimary c i (by simp [itemRank] at h; omega)
      · exact ihCte c i (by simp [itemRank] at h; omega)
    -- parseTokens
    · intro t ops c i h
      unfold parseTokens
      refine safe_andThen (ihTier t c i (by omega)) ?_
      intro this i1 hok h1
      exact ihTokensLoop t ops this c i1 (by omega)
    -- parseTokensLoop
    · intro t ops this c i h
      rcases pmatch_cases c (ops.map Prod.fst) i with hp | ⟨hp, hlt⟩ <;>
        unfold parseTokensLoop <;> simp only [hp]
      · exact safe_ok le_rfl
      · rcases hprev : prevT c (i + 1) with _ | tk <;> simp only [hprev]
        · exact safe_valueError
        · rcases hfind : ops.find? (fun p => p.1 == tk.tokenType)
            with _ | p <;> simp only [hfind]
          · exact safe_valueError
          · refine Safe.mono (Nat.le_succ i)
              (safe_andThen (ihTier t c (i + 1) (by omega)) ?_)
            intro x i2 hok h2
            exact ihTokensLoop t ops _ c i2 (by omega)
    -- parseTier
    · intro t c i h
      unfold parseTier
      cases t
      · exact ihEquality c i (by simp [tierRank] at h; omega)
      · exact ihComparison c i (by simp [tierRank] at h; omega)
      · exact ihRange c i (by simp [tierRank] at h; omega)
      · exact ihFactor c i (by simp [tierRank] at h; omega)
      · exact ihUnary c i (by simp [tierRank] at h; omega)

/-- A chunk parse never hits the embedding's fuel bound: the fuel chosen in
`parseChunk` provably suffices for the chunk's length. -/
theorem parseChunk_no_fuel (fns : String → Option Builder)
    (chunk : List Token) : parseChunk fns chunk ≠ .error .fuelExhausted := by
  have hgood := (goodAll (chunkFuel chunk)).1 ⟨fns, chunk⟩ 0
    (by simp [chunkFuel])
  unfold parseChunk
  rcases hres : parseStatement ⟨fns, chunk⟩ (chunkFuel chunk) 0
    with e | ⟨e, j⟩ <;> rw [hres] at hgood <;> simp only [hres]
  · have hene : e ≠ PErr.fuelExhausted := fun hh => hgood.1 (by rw [hh])
    exact fun hh => hene (Except.error.inj hh)
  · split <;> simp

/-- The chunk loop never hits the fuel bound. -/
theorem parseChunks_no_fuel (fns : String → Option Builder) :
    ∀ chunks : List (List Token),
      parseChunks fns chunks ≠ .error .fuelExhausted := by
  intro chunks
  induction chunks with
  | nil => simp [parseChunks]
  | cons ch rest ih =>
    unfold parseChunks
    rcases hc : parseChunk fns ch with e | e <;> simp only [hc]
    · have hne := parseChunk_no_fuel fns ch
      rw [hc] at hne
      have hene : e ≠ PErr.fuelExhausted := fun hh => hne (by rw [hh])
      exact fun hh => hene (Except.error.inj hh)
    · rcases hr : parseChunks fns rest with e2 | l <;> simp only [hr]
      · rw [hr] at ih
        exact ih
      · simp

/-- C10: `parse` terminates on every finite token sequence, returning a
result list or an error.  The cursor primitives behave as claimed — a
successful `_match` advances the index by exactly one (and only when a
current token exists), a failed `_match` leaves it unchanged, and the index
never decreases — every production moves the cursor monotonically and,
under the fuel bound `parse` supplies (linear in the token count, mirroring
the loops' consuming at least one token per iteration), no production ever
hits the embedding's artificial fuel limit, so the Python program's
unbounded recursion always bottoms out. -/
theorem c10_parse_terminates :
    (∀ (c : Ctx) (ts : List TokenType) (i : Nat),
        ((pmatch c ts i).1 = true →
          (pmatch c ts i).2 = i + 1 ∧ i < c.tokens.length) ∧
        ((pmatch c ts i).1 = false → (pmatch c ts i).2 = i) ∧
        i ≤ (pmatch c ts i).2) ∧
    (∀ fuel : Nat, Good 2 fuel parseStatement) ∧
    (∀ (fns : String → Option Builder) (tokens : List Token),
        parse fns tokens ≠ .error .fuelExhausted) := by
  refine ⟨?_, ?_, ?_⟩
  · intro c ts i
    refine ⟨?_, ?_, pmatch_le c ts i⟩
    · intro hb
      obtain ⟨he, hlt⟩ := pmatch_fst_true hb
      rw [he]
      exact ⟨rfl, hlt⟩
    · intro hb
      rw [pmatch_fst_false hb]
  · intro fuel
    exact (goodAll fuel).1
  · intro fns tokens
    unfold parse
    exact parseChunks_no_fuel fns (splitChunks tokens)

/-- C10 witnessed at concrete inputs: a successful match on SELECT advances
the cursor from 0 to 1, the statement parser is safe at fuel 5 on an empty
chunk, and a two-token parse call never reports fuel exhaustion. -/
theorem c10_parse_terminates_witness :
    (pmatch (defaultCtx [⟨.select, "SELECT"⟩]) [.select] 0).2 = 1 ∧
    0 < (defaultCtx [⟨.select, "SELECT"⟩]).tokens.length ∧
    Safe 0 (parseStatement (defaultCtx []) 5 0) ∧
    parse defaultFns [⟨.select, "SELECT"⟩, ⟨.var, "a"⟩] ≠
      .error .fuelExhausted := by
  obtain ⟨h1, h2⟩ :=
    (c10_parse_terminates.1 (defaultCtx [⟨.select, "SELECT"⟩]) [.select] 0).1
      (by decide)
  exact ⟨h1, h2, c10_parse_terminates.2.1 5 (defaultCtx []) 0 (by decide),
    c10_parse_terminates.2.2 defaultFns [⟨.select, "SELECT"⟩, ⟨.var, "a"⟩]⟩

end SqlGlot
